import Mathlib

/-! LucidAd analyze endpoint: rate limiter, input validation, error mapping

A shallow embedding of `src/app/api/analyze/route.js` (the route handler `POST`
with its process-local rate limiter `checkRateLimit`) and of
`src/netlify/functions/analyze.js` (the function handler `handler`).

Modelling conventions:

* `Date.now()` values are integers (milliseconds), modelled as `Int`.
* The JavaScript `Map` called `rateLimit` is an insertion-ordered association
  list from client key to the stored array of time stamps; `Map.get` is
  `mapGet`, `Map.set` is `mapSet` (an existing key keeps its position, a new
  key is appended).
* Mutation of the map is explicit state passing: `checkRateLimit` returns the
  boolean together with the map after the call.
-/

namespace LucidAd

/-! ## Definitions: the rate limiter (route.js, lines 9-28) -/

/-- The `rateLimit` map: client key to the stored list of request times. -/
abbrev RateMap := List (String × List Int)

/-- The constant `RATE_LIMIT_WINDOW = 60 * 1000` (milliseconds). -/
def RATE_LIMIT_WINDOW : Int := 60 * 1000

/-- The constant `MAX_REQUESTS = 10`. -/
def MAX_REQUESTS : Nat := 10

/-- The lookup `rateLimit.get(ip)`: `none` stands for `undefined`. -/
def mapGet : RateMap → String → Option (List Int)
  | [], _ => none
  | (k, v) :: rest, ip => if k = ip then some v else mapGet rest ip

/-- The update `rateLimit.set(ip, v)`. -/
def mapSet : RateMap → String → List Int → RateMap
  | [], ip, v => [(ip, v)]
  | (k, w) :: rest, ip, v => if k = ip then (k, v) :: rest else (k, w) :: mapSet rest ip v

/-- The filter of line 19: `userRequests.filter(time => now - time < RATE_LIMIT_WINDOW)`. -/
def recentRequests (userRequests : List Int) (now : Int) : List Int :=
  userRequests.filter (fun time => decide (now - time < RATE_LIMIT_WINDOW))

/-- The function `checkRateLimit(ip)` run when `Date.now()` is `now` on the map
`rateLimit`; the result is the returned boolean and the map after the call. -/
def checkRateLimit (rateLimit : RateMap) (ip : String) (now : Int) : Bool × RateMap :=
  let userRequests := (mapGet rateLimit ip).getD []
  let recent := recentRequests userRequests now
  if recent.length ≥ MAX_REQUESTS then
    (false, rateLimit)
  else
    (true, mapSet rateLimit ip (recent ++ [now]))

/-- A sequence of calls `checkRateLimit(ip)`, each with the clock value it
reads, run from the map `m`: the returned booleans in order, and the final map. -/
def runCalls : RateMap → List (String × Int) → List Bool × RateMap
  | m, [] => ([], m)
  | m, (ip, now) :: rest =>
    ((checkRateLimit m ip now).1 :: (runCalls (checkRateLimit m ip now).2 rest).1,
      (runCalls (checkRateLimit m ip now).2 rest).2)

/-- The clock values of the calls for key `k` that returned `true`, in call order. -/
def acceptedTimes (calls : List (String × Int)) (results : List Bool) (k : String) : List Int :=
  ((calls.zip results).filter (fun cr => cr.2 && decide (cr.1.1 = k))).map (fun cr => cr.1.2)

/-- How many of the time stamps `ts` lie in the trailing 60-second window ending
at `T`, that is in the interval `(T - 60000, T]`. -/
def windowCount (ts : List Int) (T : Int) : Nat :=
  (ts.filter (fun t => decide (T - 60000 < t ∧ t ≤ T))).length

/-- A concrete run: twelve calls of the key `10.0.0.1`, one a second. -/
def burstCalls : List (String × Int) :=
  [("10.0.0.1", 0), ("10.0.0.1", 1000), ("10.0.0.1", 2000), ("10.0.0.1", 3000),
   ("10.0.0.1", 4000), ("10.0.0.1", 5000), ("10.0.0.1", 6000), ("10.0.0.1", 7000),
   ("10.0.0.1", 8000), ("10.0.0.1", 9000), ("10.0.0.1", 10000), ("10.0.0.1", 11000)]

/-! ## Definitions: JavaScript values

Strings are Lean strings read as their list of characters; `length` counts
UTF-16 code units (`jsLength`), and so does the spread of a string
(`codeUnitStrings`). A string holding an unpaired surrogate has no counterpart
in this model. JSON numbers are rationals. -/

/-- A parsed JSON value, as returned by `JSON.parse` or `req.json()`. An object
is the list of its own properties in enumeration order. -/
inductive JSON where
  | null : JSON
  | bool (b : Bool) : JSON
  | num (q : ℚ) : JSON
  | str (s : String) : JSON
  | arr (xs : List JSON) : JSON
  | obj (kvs : List (String × JSON)) : JSON

/-- A thrown value as the `catch` blocks inspect it: whether it is
`instanceof z.ZodError`, its `code` when that is a string, and what
`flatten()` returns for a Zod error. -/
structure Thrown where
  isZodError : Bool
  code : Option String
  flatten : JSON

/-- A `TypeError` raised by the runtime (no `code`, not a Zod error). -/
def typeError : Thrown := ⟨false, none, JSON.null⟩

/-- A `SyntaxError` raised by `JSON.parse` (no `code`, not a Zod error). -/
def syntaxError : Thrown := ⟨false, none, JSON.null⟩

/-- An HTTP response: status code and JSON body (`none` for the empty body). -/
structure Response where
  status : Nat
  body : Option JSON

/-- The value of `s.length`: the number of UTF-16 code units. -/
def jsLength (s : List Char) : Nat :=
  (s.map (fun c => if c.val.toNat < 65536 then 1 else 2)).sum

/-- The array `s.split(',')`. -/
def splitComma : List Char → List (List Char)
  | [] => [[]]
  | c :: cs =>
    if c = ',' then [] :: splitComma cs
    else
      match splitComma cs with
      | [] => [[c]]
      | seg :: segs => (c :: seg) :: segs

/-- The test `s.startsWith(p)`. -/
def startsWith (s p : String) : Bool := p.data.isPrefixOf s.data

/-- The first own property named `k` of an object's property list. -/
def objGet : List (String × JSON) → String → Option JSON
  | [], _ => none
  | (k2, v) :: rest, k => if k2 = k then some v else objGet rest k

/-- The assignment of property `k` in an object literal being built: an
existing property keeps its place and takes the new value, a new one is added
at the end. -/
def objSet : List (String × JSON) → String → JSON → List (String × JSON)
  | [], k, v => [(k, v)]
  | (k2, w) :: rest, k, v => if k2 = k then (k2, v) :: rest else (k2, w) :: objSet rest k v

/-- The destructuring `const { image } = v`: it throws a `TypeError` for `null`
and otherwise reads the property `image` (`none` is `undefined`); only an
object has such a property. -/
def destructureImage : JSON → Except Thrown (Option JSON)
  | .null => .error typeError
  | .obj kvs => .ok (objGet kvs "image")
  | _ => .ok none

/-- JavaScript truthiness of a JSON value or `undefined`. -/
def truthy : Option JSON → Bool
  | none => false
  | some .null => false
  | some (.bool b) => b
  | some (.num q) => decide (q ≠ 0)
  | some (.str s) => decide (s ≠ "")
  | some (.arr _) => true
  | some (.obj _) => true

/-- The test `typeof v === "string"`. -/
def typeofIsString : Option JSON → Bool
  | some (.str _) => true
  | _ => false

/-- The string a value is when `typeof v === "string"`. -/
def stringValue : Option JSON → String
  | some (.str s) => s
  | _ => ""

/-- The UTF-16 code units of a string, each as the one-unit string that `s[i]`
is. A character of the BMP is one unit. A character outside the BMP is two
units, a pair of surrogates; a surrogate alone is a string this model cannot
hold, and each of the two is written as the replacement character U+FFFD. -/
def codeUnitStrings : List Char → List String
  | [] => []
  | c :: cs =>
    if c.val.toNat < 65536 then
      String.mk [c] :: codeUnitStrings cs
    else
      String.mk [Char.ofNat 65533] :: String.mk [Char.ofNat 65533] :: codeUnitStrings cs

/-- The own enumerable properties copied by the spread `{...v}`: the
properties of an object, the elements of an array under their indices, the
UTF-16 code units of a string under their indices, and nothing for the other
values. -/
def spread : JSON → List (String × JSON)
  | .obj kvs => kvs
  | .arr xs => (List.range xs.length).zip xs |>.map (fun ix => (toString ix.1, ix.2))
  | .str s => (List.range (codeUnitStrings s.data).length).zip (codeUnitStrings s.data) |>.map
      (fun iu => (toString iu.1, JSON.str iu.2))
  | _ => []

/-- The expression `Math.ceil((base64Data.length * 3) / 4)`. -/
def imageSizeOf (base64Data : List Char) : Nat := (jsLength base64Data * 3 + 3) / 4

/-- The constant `maxSize = 10 * 1024 * 1024`. -/
def maxSize : Nat := 10 * 1024 * 1024

/-- The expression `process.env.OPENAI_VISION_MODEL || "gpt-4o"`. -/
def configuredModel (envModel : Option String) : String :=
  match envModel with
  | none => "gpt-4o"
  | some s => if s = "" then "gpt-4o" else s

/-- The client key of lines 39-40:
`forwarded ? forwarded.split(',')[0] : 'unknown'`. -/
def clientKey (forwarded : Option String) : String :=
  match forwarded with
  | none => "unknown"
  | some f => if f = "" then "unknown" else String.mk ((splitComma f.data).headD [])

/-! ## Definitions: the request sent to the model (route.js lines 78-155,
analyze.js lines 70-147) -/

/-- The template string `instructions`, the same text in both files. -/
def instructions : String :=
  "You are LucidAd, an advertising claim fact-checker. Analyze the advertisement image and return concise, source-linked JSON per the schema. \n\nSteps:\n1) Identify ad name/company\n2) Virtually enhance (brightness/contrast/sharpness), denoise, deskew and run OCR\n3) Focus on relevant ad area\n4) Extract text, isolate factual claims\n5) Briefly infer context\n6) Rephrase main claim(s) as fact-checkable statements\n7) Extract product, company, key numbers, measurable facts\n8) Categorize claim type\n9) Optionally map to date/region/model\n10) Verify claim(s)\n11) Assign 0–100 truth probability\n12) ~2 sentence summary\n13) Provide 2–5 credible source links\n\nBe thorough but concise. Focus on verifiable claims and provide authoritative sources."

/-- The object literal `FactCheckSchemaForAPI`, the same in both files. -/
def FactCheckSchemaForAPI : JSON :=
  .obj [
    ("name", .str "fact_check_schema"),
    ("schema", .obj [
      ("type", .str "object"),
      ("additionalProperties", .bool false),
      ("properties", .obj [
        ("productName", .obj [("type", .arr [.str "string", .str "null"])]),
        ("company", .obj [("type", .arr [.str "string", .str "null"])]),
        ("keyNumbers", .obj [("type", .str "array"), ("items", .obj [("type", .str "string")])]),
        ("measurableFacts", .obj [("type", .str "array"), ("items", .obj [("type", .str "string")])]),
        ("category", .obj [("type", .arr [.str "string", .str "null"])]),
        ("briefContext", .obj [("type", .arr [.str "string", .str "null"])]),
        ("truthScore", .obj [("type", .arr [.str "integer", .str "null"]),
          ("minimum", .num 0), ("maximum", .num 100)]),
        ("report", .obj [("type", .str "string")]),
        ("sources", .obj [
          ("type", .str "array"),
          ("items", .obj [
            ("type", .str "object"),
            ("additionalProperties", .bool false),
            ("properties", .obj [
              ("title", .obj [("type", .arr [.str "string", .str "null"])]),
              ("url", .obj [("type", .str "string")])]),
            ("required", .arr [.str "url"])])])]),
      ("required", .arr [
        .str "productName",
        .str "company",
        .str "keyNumbers",
        .str "measurableFacts",
        .str "category",
        .str "briefContext",
        .str "truthScore",
        .str "report",
        .str "sources"])]),
    ("strict", .bool true)]

/-- The argument of `client.responses.create`, the same in both files. -/
def createRequest (model image : String) : JSON :=
  .obj [
    ("model", .str model),
    ("temperature", .num (2 / 10)),
    ("response_format", .obj [("type", .str "json_schema"), ("json_schema", FactCheckSchemaForAPI)]),
    ("input", .arr [
      .obj [
        ("role", .str "user"),
        ("content", .arr [
          .obj [("type", .str "input_text"), ("text", .str instructions)],
          .obj [("type", .str "input_image"), ("image_url", .str image)]])]]),
    ("max_output_tokens", .num 900)]

/-- What the model call and the `JSON.parse` of its `output_text` come to:
the call throws, the text is not JSON (`JSON.parse` throws a `SyntaxError`),
or the text parses to a value. -/
inductive ModelOutcome where
  | threw (e : Thrown) : ModelOutcome
  | malformed : ModelOutcome
  | json (parsed : JSON) : ModelOutcome

/-! ## Definitions: the route handler (route.js lines 36-199) -/

/-- Everything one `POST` call reads from outside: the clock read by
`checkRateLimit`, the `x-forwarded-for` header (`none` is `null`), the outcome
of `await req.json()`, the variable `OPENAI_VISION_MODEL`, the model provider
(as a function of the request it is sent), the string
`new Date().toISOString()`, and the two clock reads of `processingTime`. -/
structure RouteRequest where
  now : Int
  forwarded : Option String
  body : Except Thrown JSON
  envModel : Option String
  provider : JSON → ModelOutcome
  isoNow : String
  clock1 : Int
  clock2 : Int

/-- The result of one `POST` call: the response, the rate-limit map after the
call, and the request sent to the model (`none` when the model is not called). -/
structure RouteResult where
  response : Response
  rateLimit : RateMap
  modelRequest : Option JSON

/-- The `catch` block of `POST` (lines 172-198). -/
def routeCatch (err : Thrown) : Response :=
  if err.isZodError then
    ⟨422, some (.obj [("error", .str "Invalid response format from AI service"),
      ("details", err.flatten)])⟩
  else if err.code = some "insufficient_quota" then
    ⟨503, some (.obj [("error", .str "Service temporarily unavailable. Please try again later.")])⟩
  else if err.code = some "rate_limit_exceeded" then
    ⟨429, some (.obj [("error", .str "Service is busy. Please try again in a few minutes.")])⟩
  else
    ⟨500, some (.obj [("error",
      .str "Analysis failed. Please try again or contact support if the problem persists.")])⟩

/-- The object literal `resultWithMetadata`: the spread of the result followed
by `analyzedAt`, `model` and `processingTime`. -/
def resultWithMetadata (result : JSON) (isoNow model : String) (clock1 clock2 : Int) :
    List (String × JSON) :=
  objSet (objSet (objSet (spread result) "analyzedAt" (.str isoNow)) "model" (.str model))
    "processingTime" (.num ((clock1 - clock2 : Int) : ℚ))

/-- The response to a request the rate limiter turns away (lines 43-46). -/
def rateLimitResponse : Response :=
  ⟨429, some (.obj [("error", .str "Rate limit exceeded. Please try again in a minute.")])⟩

/-- Lines 49-198 of `POST`: all that follows the rate-limit check, with the
`catch` block applied to whatever is thrown. The result is the response and
the request sent to the model (`none` when the model is not called). The
imported validator `factCheckZ.parse` is the parameter `parseZ`; it returns
the validated value or throws. -/
def routeAfterLimiter (parseZ : JSON → Except Thrown JSON) (req : RouteRequest) :
    Response × Option JSON :=
  match req.body with
  | .error err => (routeCatch err, none)
  | .ok parsedBody =>
    match destructureImage parsedBody with
    | .error err => (routeCatch err, none)
    | .ok image =>
      if !truthy image || !typeofIsString image then
        (⟨400, some (.obj [("error", .str "Image data is required")])⟩, none)
      else if !startsWith (stringValue image) "data:image" then
        (⟨400, some (.obj [("error",
          .str "Invalid image format. Please provide a valid data URL.")])⟩, none)
      else
        match (splitComma (stringValue image).data)[1]? with
        | none => (routeCatch typeError, none)
        | some base64Data =>
          if imageSizeOf base64Data > maxSize then
            (⟨400, some (.obj [("error",
              .str "Image too large. Please use an image under 10MB.")])⟩, none)
          else
            let model := configuredModel req.envModel
            let request := createRequest model (stringValue image)
            match req.provider request with
            | .threw err => (routeCatch err, some request)
            | .malformed => (routeCatch syntaxError, some request)
            | .json parsed =>
              match parseZ parsed with
              | .error err => (routeCatch err, some request)
              | .ok validated =>
                (⟨200, some (.obj (resultWithMetadata validated req.isoNow model
                  req.clock1 req.clock2))⟩, some request)

/-- The route handler `POST`, run on the map `rateLimit`: the rate-limit check
of lines 38-47 first, then the rest of the handler. -/
def POST (parseZ : JSON → Except Thrown JSON) (rateLimit : RateMap) (req : RouteRequest) :
    RouteResult :=
  let ip := clientKey req.forwarded
  let limited := checkRateLimit rateLimit ip req.now
  if !limited.1 then
    ⟨rateLimitResponse, limited.2, none⟩
  else
    ⟨(routeAfterLimiter parseZ req).1, limited.2, (routeAfterLimiter parseZ req).2⟩

/-! ## Definitions: the function handler (analyze.js) -/

/-- Everything one `handler` call reads from outside: `event.httpMethod`, the
outcome of `JSON.parse(event.body)`, the variable `OPENAI_VISION_MODEL`, the
model provider, the string `new Date().toISOString()`, and the two clock reads
of `processingTime`. -/
structure FunctionEvent where
  httpMethod : String
  body : Except Thrown JSON
  envModel : Option String
  provider : JSON → ModelOutcome
  isoNow : String
  clock1 : Int
  clock2 : Int

/-- The result of one `handler` call: the response (its CORS headers, the same
on every path, are left out) and the request sent to the model, if any. -/
structure FunctionResult where
  response : Response
  modelRequest : Option JSON

/-- The `catch` block of `handler` (lines 166-193). -/
def functionCatch (error : Thrown) : Response :=
  if error.code = some "insufficient_quota" then
    ⟨503, some (.obj [("error", .str "Service temporarily unavailable. Please try again later.")])⟩
  else if error.code = some "rate_limit_exceeded" then
    ⟨429, some (.obj [("error", .str "Service is busy. Please try again in a few minutes.")])⟩
  else
    ⟨500, some (.obj [("error",
      .str "Analysis failed. Please try again or contact support if the problem persists.")])⟩

/-- The function handler `exports.handler`. -/
def handler (event : FunctionEvent) : FunctionResult :=
  if event.httpMethod = "OPTIONS" then
    ⟨⟨200, none⟩, none⟩
  else if event.httpMethod ≠ "POST" then
    ⟨⟨405, some (.obj [("error", .str "Method not allowed")])⟩, none⟩
  else
    match event.body with
    | .error err => ⟨functionCatch err, none⟩
    | .ok parsedBody =>
      match destructureImage parsedBody with
      | .error err => ⟨functionCatch err, none⟩
      | .ok image =>
        if !truthy image || !typeofIsString image then
          ⟨⟨400, some (.obj [("error", .str "Image data is required")])⟩, none⟩
        else if !startsWith (stringValue image) "data:image" then
          ⟨⟨400, some (.obj [("error",
            .str "Invalid image format. Please provide a valid data URL.")])⟩, none⟩
        else
          match (splitComma (stringValue image).data)[1]? with
          | none => ⟨functionCatch typeError, none⟩
          | some base64Data =>
            if imageSizeOf base64Data > maxSize then
              ⟨⟨400, some (.obj [("error",
                .str "Image too large. Please use an image under 10MB.")])⟩, none⟩
            else
              let model := configuredModel event.envModel
              let request := createRequest model (stringValue image)
              match event.provider request with
              | .threw err => ⟨functionCatch err, some request⟩
              | .malformed => ⟨functionCatch syntaxError, some request⟩
              | .json parsed =>
                ⟨⟨200, some (.obj (resultWithMetadata parsed event.isoNow model
                  event.clock1 event.clock2))⟩, some request⟩

/-! ## Definitions: the response validator

The module `@/lib/schema`, from which route.js imports `factCheckZ`, is not
among the sources. The definitions of this section follow the specification
(section 3, the FactCheckResult table, and section 4.5): every required field
present, types matching, `truthScore` an integer within 0..100 when not null,
every `sources[].url` present. Properties the table does not declare are not
part of a FactCheckResult and are not carried over. -/

/-- Modelled from the spec: the entity Source of `@/lib/schema`, with `title`
a string or null (or left out) and `url` a required string. -/
structure Source where
  title : Option (Option String)
  url : String

/-- Modelled from the spec: the entity FactCheckResult of `@/lib/schema`, the
nine fields the model provides. -/
structure FactCheckResult where
  productName : Option String
  company : Option String
  keyNumbers : List String
  measurableFacts : List String
  category : Option String
  briefContext : Option String
  truthScore : Option Int
  report : String
  sources : List Source

/-- Modelled from the spec: the check of `@/lib/schema` for a field of type
string. -/
def parseString : Option JSON → Option String
  | some (.str s) => some s
  | _ => none

/-- Modelled from the spec: the check of `@/lib/schema` for a field of type
string or null. -/
def parseNullableString : Option JSON → Option (Option String)
  | some (.str s) => some (some s)
  | some .null => some none
  | _ => none

/-- Modelled from the spec: the check of `@/lib/schema` for a sequence, element
by element in order; one element that fails makes the sequence fail. -/
def parseEach {β : Type} (f : JSON → Option β) : List JSON → Option (List β)
  | [] => some []
  | x :: xs =>
    match f x, parseEach f xs with
    | some y, some ys => some (y :: ys)
    | _, _ => none

/-- Modelled from the spec: the check of `@/lib/schema` for a field of type
sequence of string. -/
def parseStringArray : Option JSON → Option (List String)
  | some (.arr xs) => parseEach (fun x => parseString (some x)) xs
  | _ => none

/-- Modelled from the spec: the check of `@/lib/schema` for `truthScore`, an
integer or null, 0 to 100 inclusive when present. -/
def parseTruthScore : Option JSON → Option (Option Int)
  | some .null => some none
  | some (.num q) => if q.den = 1 ∧ 0 ≤ q ∧ q ≤ 100 then some (some q.num) else none
  | _ => none

/-- Modelled from the spec: the check of `@/lib/schema` for the `title` of a
source, a string or null, which may be left out. -/
def parseTitle : Option JSON → Option (Option (Option String))
  | none => some none
  | some .null => some (some none)
  | some (.str s) => some (some (some s))
  | _ => none

/-- Modelled from the spec: the check of `@/lib/schema` for one element of
`sources`. -/
def parseSource : JSON → Option Source
  | .obj kvs =>
    match parseTitle (objGet kvs "title"), parseString (objGet kvs "url") with
    | some title, some url => some ⟨title, url⟩
    | _, _ => none
  | _ => none

/-- Modelled from the spec: the check of `@/lib/schema` for `sources`, a
sequence of Source. -/
def parseSources : Option JSON → Option (List Source)
  | some (.arr xs) => parseEach parseSource xs
  | _ => none

/-- Modelled from the spec: the construction of a FactCheckResult of
`@/lib/schema` from the properties of a parsed object. -/
def parseFactCheck (kvs : List (String × JSON)) : Option FactCheckResult :=
  match parseNullableString (objGet kvs "productName"),
    parseNullableString (objGet kvs "company"),
    parseStringArray (objGet kvs "keyNumbers"),
    parseStringArray (objGet kvs "measurableFacts"),
    parseNullableString (objGet kvs "category"),
    parseNullableString (objGet kvs "briefContext"),
    parseTruthScore (objGet kvs "truthScore"),
    parseString (objGet kvs "report"),
    parseSources (objGet kvs "sources") with
  | some productName, some company, some keyNumbers, some measurableFacts, some category,
    some briefContext, some truthScore, some report, some sources =>
    some ⟨productName, company, keyNumbers, measurableFacts, category, briefContext,
      truthScore, report, sources⟩
  | _, _, _, _, _, _, _, _, _ => none

/-- Modelled from the spec: the names of the fields of `@/lib/schema` that the
properties `kvs` violate, in the order of the FactCheckResult table. -/
def violations (kvs : List (String × JSON)) : List String :=
  (if (parseNullableString (objGet kvs "productName")).isNone then ["productName"] else []) ++
  (if (parseNullableString (objGet kvs "company")).isNone then ["company"] else []) ++
  (if (parseStringArray (objGet kvs "keyNumbers")).isNone then ["keyNumbers"] else []) ++
  (if (parseStringArray (objGet kvs "measurableFacts")).isNone then ["measurableFacts"] else []) ++
  (if (parseNullableString (objGet kvs "category")).isNone then ["category"] else []) ++
  (if (parseNullableString (objGet kvs "briefContext")).isNone then ["briefContext"] else []) ++
  (if (parseTruthScore (objGet kvs "truthScore")).isNone then ["truthScore"] else []) ++
  (if (parseString (objGet kvs "report")).isNone then ["report"] else []) ++
  (if (parseSources (objGet kvs "sources")).isNone then ["sources"] else [])

/-- Modelled from the spec: the serialization of a string-or-null field of
`@/lib/schema`; null stays null. -/
def nullableToJSON : Option String → JSON
  | none => .null
  | some s => .str s

/-- Modelled from the spec: the serialization of `truthScore` of
`@/lib/schema`; null stays null. -/
def truthScoreToJSON : Option Int → JSON
  | none => .null
  | some n => .num (n : ℚ)

/-- Modelled from the spec: the serialization of a Source of `@/lib/schema`. -/
def Source.toJSON (s : Source) : JSON :=
  .obj ((match s.title with
    | none => []
    | some title => [("title", nullableToJSON title)]) ++ [("url", .str s.url)])

/-- Modelled from the spec: the serialization of a FactCheckResult of
`@/lib/schema`, field by field in the order of the table. -/
def FactCheckResult.toJSON (r : FactCheckResult) : JSON :=
  .obj [
    ("productName", nullableToJSON r.productName),
    ("company", nullableToJSON r.company),
    ("keyNumbers", .arr (r.keyNumbers.map JSON.str)),
    ("measurableFacts", .arr (r.measurableFacts.map JSON.str)),
    ("category", nullableToJSON r.category),
    ("briefContext", nullableToJSON r.briefContext),
    ("truthScore", truthScoreToJSON r.truthScore),
    ("report", .str r.report),
    ("sources", .arr (r.sources.map Source.toJSON))]

/-- Modelled from the spec: the Zod error of `@/lib/schema` for the violated
fields `fields` and form-level messages `form`; `flatten()` names each. -/
def zodError (form fields : List String) : Thrown :=
  ⟨true, none, .obj [
    ("formErrors", .arr (form.map JSON.str)),
    ("fieldErrors", .obj (fields.map (fun f => (f, JSON.arr [JSON.str "Invalid input"]))))]⟩

/-- Modelled from the spec: the call `factCheckZ.parse(parsed)` of
`@/lib/schema`: it throws a Zod error naming the violated fields, or returns
the FactCheckResult constructed from the value, serialized again. -/
def factCheckZ (parsed : JSON) : Except Thrown JSON :=
  match parsed with
  | .obj kvs =>
    match parseFactCheck kvs with
    | some r => .ok r.toJSON
    | none => .error (zodError [] (violations kvs))
  | _ => .error (zodError ["Expected object"] [])

/-! ## Definitions: concrete requests used as examples -/

/-- A provider that is never reached in the examples that use it: its output
is not JSON. -/
def silentProvider : JSON → ModelOutcome := fun _ => .malformed

/-- A function-handler event: a POST whose parsed body is `body`, the provider
answering `outcome`. -/
def postEvent (body : JSON) (outcome : ModelOutcome) : FunctionEvent :=
  ⟨"POST", .ok body, none, fun _ => outcome, "2024-01-01T00:00:00.000Z", 0, 0⟩

/-- A route-handler request at clock value `now` without the
`x-forwarded-for` header, whose parsed body is `body`, the provider answering
`outcome`. -/
def postRequest (now : Int) (body : JSON) (outcome : ModelOutcome) : RouteRequest :=
  ⟨now, none, .ok body, none, fun _ => outcome, "2024-01-01T00:00:00.000Z", 0, 0⟩

/-- A map in which the key `unknown` has used its 10 requests, all at time 0. -/
def fullMap : RateMap := [("unknown", [0, 0, 0, 0, 0, 0, 0, 0, 0, 0])]

/-! ## Definitions: base64 payloads -/

/-- A character of the base64 alphabet `A-Z a-z 0-9 + /` or the padding `=`. -/
def isBase64Char (c : Char) : Bool :=
  decide ((65 ≤ c.toNat ∧ c.toNat ≤ 90) ∨ (97 ≤ c.toNat ∧ c.toNat ≤ 122) ∨
    (48 ≤ c.toNat ∧ c.toNat ≤ 57) ∨ c.toNat = 43 ∨ c.toNat = 47 ∨ c.toNat = 61)

/-- The text `payload` is a padded base64 encoding of `n` bytes: base64
characters only, four for every group of three bytes or part of one. -/
def IsBase64Of (payload : List Char) (n : Nat) : Prop :=
  (∀ c ∈ payload, isBase64Char c = true) ∧ payload.length = 4 * ((n + 2) / 3)

/-- The data URL `data:image<header>,<payload>`, for instance with the header
`/png;base64`. -/
def dataUrl (header payload : List Char) : String :=
  String.mk ("data:image".data ++ header ++ ',' :: payload)

/-- The data URL `data:image<header>,<payload>` followed by the text `rest`;
with `rest` empty it is `dataUrl header payload`. -/
def dataUrlThen (header payload rest : List Char) : String :=
  String.mk ("data:image".data ++ header ++ ',' :: (payload ++ rest))

/-- A payload of 13 981 016 base64 characters, which decodes to 10 485 762
bytes, two more than 10 MiB. -/
def bigPayload : List Char := List.replicate 13981016 'A'

/-- The data URL `data:image/png;a=1,2;base64,` followed by `bigPayload`: its
header has a comma of its own, in the parameter `a=1,2`. -/
def commaImage : String := dataUrl "/png;a=1,2;base64".data bigPayload

/-- The parsed body `body` carries the image `image`, and `image` passes every
input check of the handlers: it is a non-empty string that starts with
`data:image`, it has a second comma-separated segment, and the size computed
from that segment is within `maxSize`. -/
def WellFormed (body : JSON) (image : String) : Prop :=
  destructureImage body = .ok (some (.str image)) ∧ image ≠ "" ∧
  startsWith image "data:image" = true ∧
  ∃ base64Data, (splitComma image.data)[1]? = some base64Data ∧
    imageSizeOf base64Data ≤ maxSize

/-- A small well-formed body: `{"image": "data:image/png;base64,AAAA"}`. -/
def smallImageBody : JSON := .obj [("image", .str "data:image/png;base64,AAAA")]

/-- A body whose image starts with `data:image` and has no comma:
`{"image": "data:image/png;base64"}`. -/
def noCommaBody : JSON := .obj [("image", .str "data:image/png;base64")]

/-- A provider answer with every field of a FactCheckResult except `report`. -/
def missingReport : JSON :=
  .obj [("productName", .null), ("company", .null), ("keyNumbers", .arr []),
    ("measurableFacts", .arr []), ("category", .null), ("briefContext", .null),
    ("truthScore", .num 73), ("sources", .arr [])]

/-- The `title` and `url` of one element of `sources`. -/
def sourceView : JSON → Option JSON × Option JSON
  | .obj kvs => (objGet kvs "title", objGet kvs "url")
  | _ => (none, none)

/-- The `title` and `url` of every element of a `sources` value, in order;
`none` when the value is not an array. -/
def sourcesView : Option JSON → Option (List (Option JSON × Option JSON))
  | some (.arr xs) => some (xs.map sourceView)
  | _ => none

/-- The properties of a conforming provider answer with `truthScore` 73, a
null `company`, one source, and a property `model` of its own. -/
def conformingFields : List (String × JSON) :=
  [("productName", .str "Acme Cola"), ("company", .null), ("keyNumbers", .arr [.str "50%"]),
    ("measurableFacts", .arr []), ("category", .null), ("briefContext", .null),
    ("truthScore", .num 73), ("report", .str "Unverified."),
    ("sources", .arr [.obj [("url", .str "https://example.org"), ("title", .null)]]),
    ("model", .str "some-other-model")]

/-! ## Definitions: the constants declared in analyze.js (lines 72-131)

The function handler declares its own `instructions` and
`FactCheckSchemaForAPI`. They are transcribed here from analyze.js, apart from
the ones above, which are transcribed from route.js and with which `handler`
is written. -/

/-- The template string `instructions` of analyze.js (lines 72-89). -/
def Netlify.instructions : String :=
  "You are LucidAd, an advertising claim fact-checker. Analyze the advertisement image and return concise, source-linked JSON per the schema. \n\nSteps:\n1) Identify ad name/company\n2) Virtually enhance (brightness/contrast/sharpness), denoise, deskew and run OCR\n3) Focus on relevant ad area\n4) Extract text, isolate factual claims\n5) Briefly infer context\n6) Rephrase main claim(s) as fact-checkable statements\n7) Extract product, company, key numbers, measurable facts\n8) Categorize claim type\n9) Optionally map to date/region/model\n10) Verify claim(s)\n11) Assign 0–100 truth probability\n12) ~2 sentence summary\n13) Provide 2–5 credible source links\n\nBe thorough but concise. Focus on verifiable claims and provide authoritative sources."

/-- The object literal `FactCheckSchemaForAPI` of analyze.js (lines 91-131). -/
def Netlify.FactCheckSchemaForAPI : JSON :=
  .obj [
    ("name", .str "fact_check_schema"),
    ("schema", .obj [
      ("type", .str "object"),
      ("additionalProperties", .bool false),
      ("properties", .obj [
        ("productName", .obj [("type", .arr [.str "string", .str "null"])]),
        ("company", .obj [("type", .arr [.str "string", .str "null"])]),
        ("keyNumbers", .obj [("type", .str "array"), ("items", .obj [("type", .str "string")])]),
        ("measurableFacts", .obj [("type", .str "array"), ("items", .obj [("type", .str "string")])]),
        ("category", .obj [("type", .arr [.str "string", .str "null"])]),
        ("briefContext", .obj [("type", .arr [.str "string", .str "null"])]),
        ("truthScore", .obj [("type", .arr [.str "integer", .str "null"]),
          ("minimum", .num 0), ("maximum", .num 100)]),
        ("report", .obj [("type", .str "string")]),
        ("sources", .obj [
          ("type", .str "array"),
          ("items", .obj [
            ("type", .str "object"),
            ("additionalProperties", .bool false),
            ("properties", .obj [
              ("title", .obj [("type", .arr [.str "string", .str "null"])]),
              ("url", .obj [("type", .str "string")])]),
            ("required", .arr [.str "url"])])])]),
      ("required", .arr [
        .str "productName",
        .str "company",
        .str "keyNumbers",
        .str "measurableFacts",
        .str "category",
        .str "briefContext",
        .str "truthScore",
        .str "report",
        .str "sources"])]),
    ("strict", .bool true)]

/-! ## Definitions: reading a descriptor -/

/-- The value reached from `j` by the property names `path`, one object after
the other. -/
def getPath : JSON → List String → Option JSON
  | j, [] => some j
  | .obj kvs, k :: ks =>
    match objGet kvs k with
    | some v => getPath v ks
    | none => none
  | _, _ :: _ => none

/-- The element 0 of an array. -/
def firstOf : Option JSON → Option JSON
  | some (.arr (x :: _)) => some x
  | _ => none

/-- The value `input[0].content[0].text` of a request to the model. -/
def requestText (request : JSON) : Option JSON :=
  match firstOf (getPath request ["input"]) with
  | some message =>
    match firstOf (getPath message ["content"]) with
    | some part => getPath part ["text"]
    | none => none
  | none => none

/-- The property names of an object, in order. -/
def keysOf : Option JSON → List String
  | some (.obj kvs) => kvs.map Prod.fst
  | _ => []

mutual
/-- The value `j` and every value nested in it, at any depth. -/
def descendants : JSON → List JSON
  | .arr xs => .arr xs :: descendantsOfItems xs
  | .obj kvs => .obj kvs :: descendantsOfFields kvs
  | j => [j]
/-- The values nested in the elements of an array. -/
def descendantsOfItems : List JSON → List JSON
  | [] => []
  | x :: xs => descendants x ++ descendantsOfItems xs
/-- The values nested in the properties of an object. -/
def descendantsOfFields : List (String × JSON) → List JSON
  | [] => []
  | (_, v) :: rest => descendants v ++ descendantsOfFields rest
end

/-- An object level of a JSON schema: an object whose `type` is `"object"`. -/
def isObjectLevel : JSON → Bool
  | .obj kvs =>
    match objGet kvs "type" with
    | some (.str t) => t == "object"
    | _ => false
  | _ => false

/-- An object whose `additionalProperties` is `false`. -/
def isClosed : JSON → Bool
  | .obj kvs =>
    match objGet kvs "additionalProperties" with
    | some (.bool false) => true
    | _ => false
  | _ => false

/-! ## Lemmas on the map -/

theorem mapGet_mapSet_same (m : RateMap) (ip : String) (v : List Int) :
    mapGet (mapSet m ip v) ip = some v := by
  induction m with
  | nil => simp [mapSet, mapGet]
  | cons p rest ih =>
    obtain ⟨k, w⟩ := p
    by_cases h : k = ip
    · simp [mapSet, mapGet, h]
    · simp [mapSet, mapGet, h, ih]

theorem mapGet_mapSet_other (m : RateMap) (ip k : String) (v : List Int) (h : k ≠ ip) :
    mapGet (mapSet m ip v) k = mapGet m k := by
  induction m with
  | nil =>
    have h2 : ¬ ip = k := fun e => h e.symm
    simp [mapSet, mapGet, h2]
  | cons p rest ih =>
    obtain ⟨k2, w⟩ := p
    by_cases h1 : k2 = ip
    · subst h1
      have h2 : ¬ k2 = k := fun e => h e.symm
      simp [mapSet, mapGet, h2]
    · by_cases h3 : k2 = k
      · subst h3
        simp [mapSet, mapGet, h1]
      · simp [mapSet, mapGet, h1, h3, ih]

/-! ## Lemmas on `checkRateLimit` -/

theorem checkRateLimit_of_full (m : RateMap) (ip : String) (now : Int)
    (h : 10 ≤ (recentRequests ((mapGet m ip).getD []) now).length) :
    checkRateLimit m ip now = (false, m) := by
  simp [checkRateLimit, MAX_REQUESTS, h]

theorem checkRateLimit_of_room (m : RateMap) (ip : String) (now : Int)
    (h : (recentRequests ((mapGet m ip).getD []) now).length < 10) :
    checkRateLimit m ip now
      = (true, mapSet m ip (recentRequests ((mapGet m ip).getD []) now ++ [now])) := by
  have h2 : ¬ 10 ≤ (recentRequests ((mapGet m ip).getD []) now).length := by omega
  simp [checkRateLimit, MAX_REQUESTS, h2]

theorem checkRateLimit_other (m : RateMap) (ip k : String) (now : Int) (h : k ≠ ip) :
    mapGet (checkRateLimit m ip now).2 k = mapGet m k := by
  by_cases hf : 10 ≤ (recentRequests ((mapGet m ip).getD []) now).length
  · rw [checkRateLimit_of_full m ip now hf]
  · rw [checkRateLimit_of_room m ip now (by omega)]
    exact mapGet_mapSet_other _ _ _ _ h

theorem recentRequests_append (a b : List Int) (now : Int) :
    recentRequests (a ++ b) now = recentRequests a now ++ recentRequests b now := by
  simp [recentRequests]

theorem recentRequests_idem (l : List Int) (now later : Int) (h : now ≤ later) :
    recentRequests (recentRequests l now) later = recentRequests l later := by
  unfold recentRequests RATE_LIMIT_WINDOW
  rw [List.filter_filter]
  apply List.filter_congr
  intro t _
  by_cases h1 : later - t < 60 * 1000
  · have h2 : now - t < 60 * 1000 := by omega
    rw [decide_eq_true h1, decide_eq_true h2]
    rfl
  · rw [decide_eq_false h1]
    rfl

/-! ## Lemmas on call sequences -/

theorem acceptedTimes_cons (m : RateMap) (ip : String) (now : Int)
    (rest : List (String × Int)) (k : String) :
    acceptedTimes ((ip, now) :: rest) (runCalls m ((ip, now) :: rest)).1 k =
      (if (checkRateLimit m ip now).1 = true ∧ ip = k then [now] else []) ++
        acceptedTimes rest (runCalls (checkRateLimit m ip now).2 rest).1 k := by
  by_cases h : (checkRateLimit m ip now).1 = true ∧ ip = k
  · obtain ⟨h1, h2⟩ := h
    subst h2
    simp [acceptedTimes, runCalls, List.filter_cons, h1]
  · rw [if_neg h]
    have h2 : ((checkRateLimit m ip now).1 && decide (ip = k)) = false := by
      cases hb : (checkRateLimit m ip now).1 with
      | false => simp
      | true =>
        have h3 : ip ≠ k := fun e => h ⟨hb, e⟩
        simp [h3]
    simp [acceptedTimes, runCalls, List.filter_cons, h2]

theorem windowCount_append (a b : List Int) (T : Int) :
    windowCount (a ++ b) T = windowCount a T + windowCount b T := by
  simp [windowCount]

theorem windowCount_le_recent (A : List Int) (now T : Int) (h : now ≤ T) :
    windowCount A T ≤ (recentRequests A now).length := by
  unfold windowCount recentRequests RATE_LIMIT_WINDOW
  rw [← List.countP_eq_length_filter, ← List.countP_eq_length_filter]
  apply List.countP_mono_left
  intro t _ ht
  simp only [decide_eq_true_eq] at ht ⊢
  omega

theorem windowCount_single_le (now T : Int) : windowCount [now] T ≤ 1 := by
  unfold windowCount
  exact (List.length_filter_le _ _).trans (by simp)

theorem windowCount_single_out (now T : Int) (h : ¬ now ≤ T) : windowCount [now] T = 0 := by
  simp [windowCount, h]

/-- The invariant behind the sliding-window guarantee: if the accepted times
`A` of key `k` so far and the list stored for `k` agree on what is recent at
every clock value from `c` on, and no window holds more than 10 of `A`, then
this stays so along any further calls whose clock does not fall below `c`. -/
theorem window_invariant (k : String) (calls : List (String × Int)) :
    ∀ (m : RateMap) (A : List Int) (c : Int),
      (∀ later, c ≤ later →
        recentRequests A later = recentRequests ((mapGet m k).getD []) later) →
      (∀ T, windowCount A T ≤ 10) →
      List.Chain (fun a b => a ≤ b) c (calls.map Prod.snd) →
      ∀ T, windowCount (A ++ acceptedTimes calls (runCalls m calls).1 k) T ≤ 10 := by
  induction calls with
  | nil =>
    intro m A c _ hA _ T
    simpa [acceptedTimes] using hA T
  | cons call rest ih =>
    obtain ⟨ip, now⟩ := call
    intro m A c hinv hA hchain T
    simp only [List.map_cons, List.chain_cons] at hchain
    obtain ⟨hc, hchain⟩ := hchain
    rw [acceptedTimes_cons]
    by_cases hk : ip = k
    · subst hk
      by_cases hf : 10 ≤ (recentRequests ((mapGet m ip).getD []) now).length
      · rw [checkRateLimit_of_full m ip now hf]
        simp only [Bool.false_eq_true, false_and, if_false, List.nil_append]
        exact ih m A now (fun later hl => hinv later (le_trans hc hl)) hA hchain T
      · have hroom : (recentRequests ((mapGet m ip).getD []) now).length < 10 := by omega
        rw [checkRateLimit_of_room m ip now hroom]
        simp only [and_self, if_true]
        rw [← List.append_assoc]
        apply ih _ (A ++ [now]) now
        · intro later hl
          rw [mapGet_mapSet_same]
          simp only [Option.getD_some]
          rw [recentRequests_append, recentRequests_append, recentRequests_idem _ _ _ hl,
            hinv later (le_trans hc hl)]
        · intro T2
          rw [windowCount_append]
          by_cases hin : now ≤ T2
          · have h1 := windowCount_le_recent A now T2 hin
            rw [hinv now hc] at h1
            have h2 := windowCount_single_le now T2
            omega
          · rw [windowCount_single_out now T2 hin]
            exact hA T2
        · exact hchain
    · have hne : k ≠ ip := fun e => hk e.symm
      have hno : ¬ ((checkRateLimit m ip now).1 = true ∧ ip = k) := fun h => hk h.2
      rw [if_neg hno, List.nil_append]
      apply ih _ A now
      · intro later hl
        rw [checkRateLimit_other m ip k now hne]
        exact hinv later (le_trans hc hl)
      · exact hA
      · exact hchain

theorem runCalls_single (m : RateMap) (ip : String) (now : Int) :
    runCalls m [(ip, now)] = ([(checkRateLimit m ip now).1], (checkRateLimit m ip now).2) := rfl

theorem runCalls_append (a b : List (String × Int)) :
    ∀ m : RateMap, runCalls m (a ++ b)
      = ((runCalls m a).1 ++ (runCalls (runCalls m a).2 b).1, (runCalls (runCalls m a).2 b).2) := by
  induction a with
  | nil => intro m; simp [runCalls]
  | cons call rest ih =>
    obtain ⟨ip, now⟩ := call
    intro m
    simp [runCalls, ih]

theorem recentRequests_of_all (l : List Int) (now : Int) (h : ∀ s ∈ l, now - s < 60000) :
    recentRequests l now = l := by
  unfold recentRequests RATE_LIMIT_WINDOW
  rw [List.filter_eq_self]
  intro s hs
  have := h s hs
  simp only [decide_eq_true_eq]
  omega

/-- Calls of one key whose times, like the stored ones, all lie in one span
shorter than the window are all admitted while the list has room. -/
theorem runCalls_all_admitted (ip : String) (lo : Int) (ts : List Int) :
    ∀ m : RateMap,
      (∀ s ∈ (mapGet m ip).getD [], lo ≤ s ∧ s < lo + 60000) →
      (∀ t ∈ ts, lo ≤ t ∧ t < lo + 60000) →
      ((mapGet m ip).getD []).length + ts.length ≤ 10 →
      (runCalls m (ts.map (fun t => (ip, t)))).1 = List.replicate ts.length true ∧
      (mapGet (runCalls m (ts.map (fun t => (ip, t)))).2 ip).getD []
        = (mapGet m ip).getD [] ++ ts := by
  induction ts with
  | nil => intro m _ _ _; simp [runCalls]
  | cons t rest ih =>
    intro m hL hts hlen
    have ht := hts t (List.mem_cons_self _ _)
    have hall : recentRequests ((mapGet m ip).getD []) t = (mapGet m ip).getD [] :=
      recentRequests_of_all _ _ (fun s hs => by have := hL s hs; omega)
    simp only [List.length_cons] at hlen
    have hroom : (recentRequests ((mapGet m ip).getD []) t).length < 10 := by
      rw [hall]; omega
    have hstep := checkRateLimit_of_room m ip t hroom
    rw [hall] at hstep
    have hget : (mapGet (mapSet m ip ((mapGet m ip).getD [] ++ [t])) ip).getD []
        = (mapGet m ip).getD [] ++ [t] := by
      rw [mapGet_mapSet_same]; rfl
    have hih := ih (mapSet m ip ((mapGet m ip).getD [] ++ [t]))
      (by
        rw [hget]
        intro s hs
        rcases List.mem_append.1 hs with h1 | h1
        · exact hL s h1
        · simp only [List.mem_singleton] at h1
          subst h1
          exact ht)
      (fun t2 h2 => hts t2 (List.mem_cons_of_mem _ h2))
      (by rw [hget]; simp only [List.length_append, List.length_singleton]; omega)
    rw [hget] at hih
    simp only [List.map_cons, runCalls, hstep, List.length_cons, List.replicate_succ]
    refine ⟨by rw [hih.1], ?_⟩
    rw [hih.2]
    simp

/-! ## Lemmas on the route handler -/

theorem POST_of_limited (parseZ : JSON → Except Thrown JSON) (m : RateMap) (req : RouteRequest)
    (h : (checkRateLimit m (clientKey req.forwarded) req.now).1 = false) :
    POST parseZ m req
      = ⟨rateLimitResponse, (checkRateLimit m (clientKey req.forwarded) req.now).2, none⟩ := by
  simp [POST, h]

theorem POST_of_admitted (parseZ : JSON → Except Thrown JSON) (m : RateMap) (req : RouteRequest)
    (h : (checkRateLimit m (clientKey req.forwarded) req.now).1 = true) :
    POST parseZ m req
      = ⟨(routeAfterLimiter parseZ req).1, (checkRateLimit m (clientKey req.forwarded) req.now).2,
          (routeAfterLimiter parseZ req).2⟩ := by
  simp [POST, h]

theorem POST_eq (parseZ : JSON → Except Thrown JSON) (m : RateMap) (req : RouteRequest) :
    POST parseZ m req =
      if (checkRateLimit m (clientKey req.forwarded) req.now).1 = true then
        ⟨(routeAfterLimiter parseZ req).1, (checkRateLimit m (clientKey req.forwarded) req.now).2,
          (routeAfterLimiter parseZ req).2⟩
      else
        ⟨rateLimitResponse, (checkRateLimit m (clientKey req.forwarded) req.now).2, none⟩ := by
  cases h : (checkRateLimit m (clientKey req.forwarded) req.now).1 with
  | false => simp [POST_of_limited parseZ m req h]
  | true => simp [POST_of_admitted parseZ m req h]

theorem routeAfterLimiter_required (parseZ : JSON → Except Thrown JSON) (req : RouteRequest)
    (body : JSON) (image : Option JSON) (hreq : req.body = .ok body)
    (hbody : destructureImage body = .ok image)
    (h : (!truthy image || !typeofIsString image) = true) :
    routeAfterLimiter parseZ req
      = (⟨400, some (.obj [("error", .str "Image data is required")])⟩, none) := by
  unfold routeAfterLimiter
  rw [hreq]
  simp only [hbody, h, if_true]

theorem routeAfterLimiter_format (parseZ : JSON → Except Thrown JSON) (req : RouteRequest)
    (body : JSON) (image : Option JSON) (hreq : req.body = .ok body)
    (hbody : destructureImage body = .ok image)
    (h : (!truthy image || !typeofIsString image) = false)
    (hstart : startsWith (stringValue image) "data:image" = false) :
    routeAfterLimiter parseZ req
      = (⟨400, some (.obj [("error",
          .str "Invalid image format. Please provide a valid data URL.")])⟩, none) := by
  unfold routeAfterLimiter
  rw [hreq]
  simp only [hbody, h, hstart, Bool.false_eq_true, if_false, Bool.not_false, if_true]

theorem handler_required (event : FunctionEvent)
    (body : JSON) (image : Option JSON) (hmethod : event.httpMethod = "POST")
    (hreq : event.body = .ok body)
    (hbody : destructureImage body = .ok image)
    (h : (!truthy image || !typeofIsString image) = true) :
    handler event = ⟨⟨400, some (.obj [("error", .str "Image data is required")])⟩, none⟩ := by
  unfold handler
  rw [hreq, hmethod]
  simp [hbody, h]

theorem handler_format (event : FunctionEvent)
    (body : JSON) (image : Option JSON) (hmethod : event.httpMethod = "POST")
    (hreq : event.body = .ok body)
    (hbody : destructureImage body = .ok image)
    (h : (!truthy image || !typeofIsString image) = false)
    (hstart : startsWith (stringValue image) "data:image" = false) :
    handler event = ⟨⟨400, some (.obj [("error",
        .str "Invalid image format. Please provide a valid data URL.")])⟩, none⟩ := by
  unfold handler
  rw [hreq, hmethod]
  simp [hbody, h, hstart]

theorem not_accepted_of_bad (image : Option JSON)
    (h : typeofIsString image = false ∨ image = some (.str "")) :
    (!truthy image || !typeofIsString image) = true := by
  rcases h with h | h
  · simp [h]
  · subst h
    simp [truthy]

theorem accepted_of_nonempty (s : String) (h : s ≠ "") :
    (!truthy (some (.str s)) || !typeofIsString (some (.str s))) = false := by
  simp [truthy, typeofIsString, h]

/-! ## Lemmas on strings and data URLs -/

theorem codeUnitStrings_length (s : List Char) : (codeUnitStrings s).length = jsLength s := by
  induction s with
  | nil => rfl
  | cons c cs ih =>
    unfold jsLength at ih ⊢
    by_cases h : c.val.toNat < 65536
    · simp [codeUnitStrings, h, ih]
      omega
    · simp [codeUnitStrings, h, ih]
      omega

/-- The spread of a string has one property for each UTF-16 code unit. -/
theorem spread_str_length (s : String) : (spread (.str s)).length = jsLength s.data := by
  simp [spread, codeUnitStrings_length]


theorem splitComma_ne_nil (s : List Char) : splitComma s ≠ [] := by
  cases s with
  | nil => simp [splitComma]
  | cons c cs =>
    by_cases h : c = ','
    · simp [splitComma, h]
    · simp only [splitComma, h, if_false]
      split <;> simp

theorem splitComma_of_no_comma (s : List Char) (h : ∀ c ∈ s, c ≠ ',') : splitComma s = [s] := by
  induction s with
  | nil => rfl
  | cons c cs ih =>
    have hc : c ≠ ',' := h c (List.mem_cons_self _ _)
    have ih2 := ih (fun d hd => h d (List.mem_cons_of_mem _ hd))
    simp [splitComma, hc, ih2]

theorem splitComma_append_comma (a rest : List Char) (h : ∀ c ∈ a, c ≠ ',') :
    splitComma (a ++ ',' :: rest) = a :: splitComma rest := by
  induction a with
  | nil => simp [splitComma]
  | cons c cs ih =>
    have hc : c ≠ ',' := h c (List.mem_cons_self _ _)
    have ih2 := ih (fun d hd => h d (List.mem_cons_of_mem _ hd))
    simp [splitComma, hc, ih2]

theorem splitComma_head (s : List Char) :
    (splitComma s).headD [] = s.takeWhile (fun c => decide (c ≠ ',')) := by
  induction s with
  | nil => rfl
  | cons c cs ih =>
    by_cases h : c = ','
    · simp [splitComma, h]
    · cases hs : splitComma cs with
      | nil => exact absurd hs (splitComma_ne_nil cs)
      | cons seg segs =>
        rw [hs] at ih
        simp only [List.headD_cons] at ih
        simp [splitComma, h, hs, ih]

theorem takeWhile_of_no_comma (s : List Char) (h : ∀ c ∈ s, c ≠ ',') :
    s.takeWhile (fun c => decide (c ≠ ',')) = s := by
  rw [List.takeWhile_eq_self_iff]
  intro c hc
  simpa using h c hc

theorem isBase64Char_ne_comma (c : Char) (h : isBase64Char c = true) : c ≠ ',' := by
  intro e
  subst e
  revert h
  decide

theorem isBase64Char_bmp (c : Char) (h : isBase64Char c = true) : c.val.toNat < 65536 := by
  unfold isBase64Char at h
  simp only [decide_eq_true_eq] at h
  have e : c.toNat = c.val.toNat := rfl
  omega

theorem jsLength_of_bmp (s : List Char) (h : ∀ c ∈ s, c.val.toNat < 65536) :
    jsLength s = s.length := by
  induction s with
  | nil => rfl
  | cons c cs ih =>
    have hc := h c (List.mem_cons_self _ _)
    have ih2 := ih (fun d hd => h d (List.mem_cons_of_mem _ hd))
    unfold jsLength at ih2 ⊢
    simp [hc, ih2]
    omega

theorem dataUrl_segment (header payload : List Char)
    (hheader : ∀ c ∈ header, c ≠ ',') (hpayload : ∀ c ∈ payload, c ≠ ',') :
    (splitComma (dataUrl header payload).data)[1]? = some payload := by
  have hpre : ∀ c ∈ "data:image".data ++ header, c ≠ ',' := by
    intro c hc
    rcases List.mem_append.1 hc with h | h
    · intro e
      subst e
      revert h
      decide
    · exact hheader c h
  unfold dataUrl
  rw [splitComma_append_comma _ _ hpre, splitComma_of_no_comma _ hpayload]
  rfl

theorem dataUrl_startsWith (header payload : List Char) :
    startsWith (dataUrl header payload) "data:image" = true := by
  unfold startsWith dataUrl
  rw [List.isPrefixOf_iff_prefix, List.append_assoc]
  exact List.prefix_append _ _

theorem dataUrl_ne_empty (header payload : List Char) : dataUrl header payload ≠ "" := by
  intro h
  have := congrArg String.data h
  simp [dataUrl] at this

theorem imageSizeOf_base64 (payload : List Char) (n : Nat) (h : IsBase64Of payload n) :
    n ≤ imageSizeOf payload := by
  unfold imageSizeOf
  rw [jsLength_of_bmp payload (fun c hc => isBase64Char_bmp c (h.1 c hc)), h.2]
  omega

theorem jsLength_append (a b : List Char) : jsLength (a ++ b) = jsLength a + jsLength b := by
  simp [jsLength]

theorem imageSizeOf_append_le (a b : List Char) : imageSizeOf a ≤ imageSizeOf (a ++ b) := by
  unfold imageSizeOf
  rw [jsLength_append]
  omega

theorem splitComma_second (pre s : List Char) (h : ∀ c ∈ pre, c ≠ ',') :
    (splitComma (pre ++ ',' :: s))[1]? = some (s.takeWhile (fun c => decide (c ≠ ','))) := by
  rw [splitComma_append_comma _ _ h, ← splitComma_head]
  cases hs : splitComma s with
  | nil => exact absurd hs (splitComma_ne_nil s)
  | cons seg segs => simp

theorem dataUrlThen_segment (header payload rest : List Char)
    (hheader : ∀ c ∈ header, c ≠ ',') (hpayload : ∀ c ∈ payload, c ≠ ',') :
    (splitComma (dataUrlThen header payload rest).data)[1]?
      = some (payload ++ rest.takeWhile (fun c => decide (c ≠ ','))) := by
  have hpre : ∀ c ∈ "data:image".data ++ header, c ≠ ',' := by
    intro c hc
    rcases List.mem_append.1 hc with h | h
    · intro e
      subst e
      revert h
      decide
    · exact hheader c h
  unfold dataUrlThen
  rw [splitComma_second _ _ hpre, List.takeWhile_append_of_pos]
  intro c hc
  simpa using hpayload c hc

theorem dataUrlThen_startsWith (header payload rest : List Char) :
    startsWith (dataUrlThen header payload rest) "data:image" = true := by
  unfold startsWith dataUrlThen
  rw [List.isPrefixOf_iff_prefix, List.append_assoc]
  exact List.prefix_append _ _

theorem dataUrlThen_ne_empty (header payload rest : List Char) :
    dataUrlThen header payload rest ≠ "" := by
  intro h
  have := congrArg String.data h
  simp [dataUrlThen] at this

theorem dataUrlThen_nil (header payload : List Char) :
    dataUrlThen header payload [] = dataUrl header payload := by
  simp [dataUrlThen, dataUrl]

theorem commaImage_segment : (splitComma commaImage.data)[1]? = some "2;base64".data := by
  have e : commaImage.data
      = "data:image/png;a=1".data ++ ',' :: ("2;base64".data ++ ',' :: bigPayload) := rfl
  rw [e, splitComma_second _ _ (by decide), List.takeWhile_append_of_pos (by decide)]
  rfl

theorem commaImage_wellFormed : WellFormed (.obj [("image", .str commaImage)]) commaImage :=
  ⟨rfl, dataUrl_ne_empty _ _, dataUrl_startsWith _ _, "2;base64".data, commaImage_segment,
    by decide⟩

theorem routeAfterLimiter_too_large (parseZ : JSON → Except Thrown JSON) (req : RouteRequest)
    (body : JSON) (s : String) (base64Data : List Char) (hreq : req.body = .ok body)
    (hbody : destructureImage body = .ok (some (.str s)))
    (hne : s ≠ "") (hstart : startsWith s "data:image" = true)
    (hseg : (splitComma s.data)[1]? = some base64Data)
    (hsize : imageSizeOf base64Data > maxSize) :
    routeAfterLimiter parseZ req
      = (⟨400, some (.obj [("error",
          .str "Image too large. Please use an image under 10MB.")])⟩, none) := by
  unfold routeAfterLimiter
  rw [hreq]
  simp only [hbody, accepted_of_nonempty s hne, stringValue, hstart, hseg, hsize,
    Bool.false_eq_true, if_false, Bool.not_true, if_true]

theorem handler_too_large (event : FunctionEvent)
    (body : JSON) (s : String) (base64Data : List Char) (hmethod : event.httpMethod = "POST")
    (hreq : event.body = .ok body)
    (hbody : destructureImage body = .ok (some (.str s)))
    (hne : s ≠ "") (hstart : startsWith s "data:image" = true)
    (hseg : (splitComma s.data)[1]? = some base64Data)
    (hsize : imageSizeOf base64Data > maxSize) :
    handler event = ⟨⟨400, some (.obj [("error",
        .str "Image too large. Please use an image under 10MB.")])⟩, none⟩ := by
  unfold handler
  rw [hreq, hmethod]
  simp [hbody, accepted_of_nonempty s hne, stringValue, hstart, hseg, hsize]

theorem bigPayload_base64 : IsBase64Of bigPayload 10485762 := by
  refine ⟨?_, ?_⟩
  · intro c hc
    rw [List.eq_of_mem_replicate hc]
    rfl
  · unfold bigPayload
    rw [List.length_replicate]

theorem routeAfterLimiter_valid (parseZ : JSON → Except Thrown JSON) (req : RouteRequest)
    (body : JSON) (image : String) (hreq : req.body = .ok body) (hwf : WellFormed body image) :
    routeAfterLimiter parseZ req =
      match req.provider (createRequest (configuredModel req.envModel) image) with
      | .threw err =>
        (routeCatch err, some (createRequest (configuredModel req.envModel) image))
      | .malformed =>
        (routeCatch syntaxError, some (createRequest (configuredModel req.envModel) image))
      | .json parsed =>
        match parseZ parsed with
        | .error err =>
          (routeCatch err, some (createRequest (configuredModel req.envModel) image))
        | .ok validated =>
          (⟨200, some (.obj (resultWithMetadata validated req.isoNow
            (configuredModel req.envModel) req.clock1 req.clock2))⟩,
            some (createRequest (configuredModel req.envModel) image)) := by
  obtain ⟨hbody, hne, hstart, base64Data, hseg, hsize⟩ := hwf
  have hsize2 : ¬ imageSizeOf base64Data > maxSize := by omega
  unfold routeAfterLimiter
  rw [hreq]
  simp only [hbody, accepted_of_nonempty image hne, stringValue, hstart, hseg, hsize2,
    Bool.false_eq_true, if_false, Bool.not_true]

theorem handler_valid (event : FunctionEvent)
    (body : JSON) (image : String) (hmethod : event.httpMethod = "POST")
    (hreq : event.body = .ok body) (hwf : WellFormed body image) :
    handler event =
      match event.provider (createRequest (configuredModel event.envModel) image) with
      | .threw err =>
        ⟨functionCatch err, some (createRequest (configuredModel event.envModel) image)⟩
      | .malformed =>
        ⟨functionCatch syntaxError, some (createRequest (configuredModel event.envModel) image)⟩
      | .json parsed =>
        ⟨⟨200, some (.obj (resultWithMetadata parsed event.isoNow
          (configuredModel event.envModel) event.clock1 event.clock2))⟩,
          some (createRequest (configuredModel event.envModel) image)⟩ := by
  obtain ⟨hbody, hne, hstart, base64Data, hseg, hsize⟩ := hwf
  have hsize2 : ¬ imageSizeOf base64Data > maxSize := by omega
  unfold handler
  rw [hreq, hmethod]
  simp [hbody, accepted_of_nonempty image hne, stringValue, hstart, hseg, hsize2]

theorem smallImageBody_wellFormed : WellFormed smallImageBody "data:image/png;base64,AAAA" :=
  ⟨rfl, by decide, rfl, "AAAA".data, rfl, by decide⟩

/-! ## Lemmas on objects and on the validator -/

theorem objGet_objSet (l : List (String × JSON)) (k : String) (v : JSON) (k2 : String) :
    objGet (objSet l k v) k2 = if k = k2 then some v else objGet l k2 := by
  induction l with
  | nil => simp [objSet, objGet]
  | cons p rest ih =>
    obtain ⟨k3, w⟩ := p
    by_cases h1 : k3 = k
    · subst h1
      by_cases h2 : k3 = k2
      · simp [objSet, objGet, h2]
      · simp [objSet, objGet, h2]
    · by_cases h2 : k3 = k2
      · subst h2
        have h3 : ¬ k = k3 := fun e => h1 e.symm
        simp [objSet, objGet, h1, h3]
      · simp [objSet, objGet, h1, h2, ih]

theorem resultWithMetadata_model (r : JSON) (iso model : String) (c1 c2 : Int) :
    objGet (resultWithMetadata r iso model c1 c2) "model" = some (.str model) := by
  simp [resultWithMetadata, objGet_objSet]

theorem resultWithMetadata_analyzedAt (r : JSON) (iso model : String) (c1 c2 : Int) :
    objGet (resultWithMetadata r iso model c1 c2) "analyzedAt" = some (.str iso) := by
  simp [resultWithMetadata, objGet_objSet]

theorem resultWithMetadata_other (r : JSON) (iso model : String) (c1 c2 : Int) (f : String)
    (h1 : f ≠ "analyzedAt") (h2 : f ≠ "model") (h3 : f ≠ "processingTime") :
    objGet (resultWithMetadata r iso model c1 c2) f = objGet (spread r) f := by
  have e1 : ¬ "analyzedAt" = f := fun e => h1 e.symm
  have e2 : ¬ "model" = f := fun e => h2 e.symm
  have e3 : ¬ "processingTime" = f := fun e => h3 e.symm
  simp [resultWithMetadata, objGet_objSet, e1, e2, e3]

theorem parseString_eq (x : Option JSON) (v : String) (h : parseString x = some v) :
    x = some (.str v) := by
  unfold parseString at h
  split at h
  · simp only [Option.some.injEq] at h
    rw [h]
  · exact absurd h (by simp)

theorem parseNullableString_eq (x : Option JSON) (v : Option String)
    (h : parseNullableString x = some v) : x = some (nullableToJSON v) := by
  unfold parseNullableString at h
  split at h
  · simp only [Option.some.injEq] at h
    rw [← h]; rfl
  · simp only [Option.some.injEq] at h
    rw [← h]; rfl
  · exact absurd h (by simp)

theorem parseEach_string_eq (xs : List JSON) :
    ∀ l : List String, parseEach (fun x => parseString (some x)) xs = some l →
      xs = l.map JSON.str := by
  induction xs with
  | nil =>
    intro l h
    simp only [parseEach, Option.some.injEq] at h
    rw [← h]; rfl
  | cons x rest ih =>
    intro l h
    unfold parseEach at h
    split at h
    · rename_i y ys hy hys
      simp only [Option.some.injEq] at h
      have hx := parseString_eq _ _ hy
      simp only [Option.some.injEq] at hx
      rw [← h, hx, ih ys hys]
      rfl
    · exact absurd h (by simp)

theorem parseStringArray_eq (x : Option JSON) (l : List String)
    (h : parseStringArray x = some l) : x = some (.arr (l.map JSON.str)) := by
  unfold parseStringArray at h
  split at h
  · rw [parseEach_string_eq _ l h]
  · exact absurd h (by simp)

theorem parseTruthScore_eq (x : Option JSON) (v : Option Int)
    (h : parseTruthScore x = some v) : x = some (truthScoreToJSON v) := by
  match x, h with
  | some .null, h =>
    simp only [parseTruthScore, Option.some.injEq] at h
    rw [← h]; rfl
  | some (.num q), h =>
    simp only [parseTruthScore] at h
    by_cases hq : q.den = 1 ∧ 0 ≤ q ∧ q ≤ 100
    · rw [if_pos hq] at h
      simp only [Option.some.injEq] at h
      rw [← h]
      have e : ((q.num : ℤ) : ℚ) = q := Rat.coe_int_num_of_den_eq_one hq.1
      simp only [truthScoreToJSON, e]
    · rw [if_neg hq] at h
      exact absurd h (by simp)
  | none, h => exact absurd h (by simp [parseTruthScore])
  | some (.bool _), h => exact absurd h (by simp [parseTruthScore])
  | some (.str _), h => exact absurd h (by simp [parseTruthScore])
  | some (.arr _), h => exact absurd h (by simp [parseTruthScore])
  | some (.obj _), h => exact absurd h (by simp [parseTruthScore])

theorem parseTitle_eq (x : Option JSON) (t : Option (Option String))
    (h : parseTitle x = some t) :
    x = t.map nullableToJSON := by
  match x, h with
  | none, h =>
    simp only [parseTitle, Option.some.injEq] at h
    rw [← h]; rfl
  | some .null, h =>
    simp only [parseTitle, Option.some.injEq] at h
    rw [← h]; rfl
  | some (.str _), h =>
    simp only [parseTitle, Option.some.injEq] at h
    rw [← h]; rfl
  | some (.bool _), h => exact absurd h (by simp [parseTitle])
  | some (.num _), h => exact absurd h (by simp [parseTitle])
  | some (.arr _), h => exact absurd h (by simp [parseTitle])
  | some (.obj _), h => exact absurd h (by simp [parseTitle])

theorem sourceView_toJSON (s : Source) :
    sourceView s.toJSON = (s.title.map nullableToJSON, some (.str s.url)) := by
  obtain ⟨title, url⟩ := s
  cases title with
  | none => simp [Source.toJSON, sourceView, objGet]
  | some t => simp [Source.toJSON, sourceView, objGet]

theorem parseSource_view (j : JSON) (s : Source) (h : parseSource j = some s) :
    sourceView j = sourceView s.toJSON := by
  match j, h with
  | .obj kvs, h =>
    simp only [parseSource] at h
    split at h
    · rename_i title url ht hu
      simp only [Option.some.injEq] at h
      rw [sourceView_toJSON, ← h]
      show (objGet kvs "title", objGet kvs "url") = _
      rw [parseTitle_eq _ _ ht, parseString_eq _ _ hu]
    · exact absurd h (by simp)
  | .null, h => cases h
  | .bool _, h => cases h
  | .num _, h => cases h
  | .str _, h => cases h
  | .arr _, h => cases h

theorem parseEach_source_view (xs : List JSON) :
    ∀ l : List Source, parseEach parseSource xs = some l →
      xs.map sourceView = (l.map Source.toJSON).map sourceView := by
  induction xs with
  | nil =>
    intro l h
    simp only [parseEach, Option.some.injEq] at h
    rw [← h]; rfl
  | cons x rest ih =>
    intro l h
    unfold parseEach at h
    split at h
    · rename_i y ys hy hys
      simp only [Option.some.injEq] at h
      rw [← h]
      simp only [List.map_cons, parseSource_view x y hy, ih ys hys]
    · exact absurd h (by simp)

theorem parseSources_view (x : Option JSON) (l : List Source) (h : parseSources x = some l) :
    sourcesView x = sourcesView (some (.arr (l.map Source.toJSON))) := by
  match x, h with
  | some (.arr xs), h =>
    simp only [parseSources] at h
    simp only [sourcesView, parseEach_source_view xs l h]
  | none, h => exact absurd h (by simp [parseSources])
  | some .null, h => exact absurd h (by simp [parseSources])
  | some (.bool _), h => exact absurd h (by simp [parseSources])
  | some (.num _), h => exact absurd h (by simp [parseSources])
  | some (.str _), h => exact absurd h (by simp [parseSources])
  | some (.obj _), h => exact absurd h (by simp [parseSources])

/-- What a successful validation returns: the eight plain fields with the
values they have in the input, and `sources` with the same titles and urls. -/
theorem factCheckZ_preserves (kvs : List (String × JSON)) (validated : JSON)
    (h : factCheckZ (.obj kvs) = .ok validated) :
    (∀ f ∈ ["productName", "company", "keyNumbers", "measurableFacts", "category",
        "briefContext", "truthScore", "report"],
      objGet (spread validated) f = objGet kvs f) ∧
    sourcesView (objGet (spread validated) "sources") = sourcesView (objGet kvs "sources") ∧
    (sourcesView (objGet kvs "sources")).isSome = true := by
  simp only [factCheckZ] at h
  cases hp : parseFactCheck kvs with
  | none =>
    rw [hp] at h
    exact absurd h (by simp)
  | some r =>
    rw [hp] at h
    simp only [Except.ok.injEq] at h
    unfold parseFactCheck at hp
    split at hp
    · rename_i productName company keyNumbers measurableFacts category briefContext
        truthScore report sources h1 h2 h3 h4 h5 h6 h7 h8 h9
      simp only [Option.some.injEq] at hp
      rw [← h, ← hp]
      have e1 := parseNullableString_eq _ _ h1
      have e2 := parseNullableString_eq _ _ h2
      have e3 := parseStringArray_eq _ _ h3
      have e4 := parseStringArray_eq _ _ h4
      have e5 := parseNullableString_eq _ _ h5
      have e6 := parseNullableString_eq _ _ h6
      have e7 := parseTruthScore_eq _ _ h7
      have e8 := parseString_eq _ _ h8
      have e9 := parseSources_view _ _ h9
      refine ⟨?_, ?_, ?_⟩
      · intro f hf
        simp only [List.mem_cons, List.mem_singleton, List.not_mem_nil, or_false] at hf
        rcases hf with hf | hf | hf | hf | hf | hf | hf | hf <;> subst hf
        · rw [e1]; rfl
        · rw [e2]; rfl
        · rw [e3]; rfl
        · rw [e4]; rfl
        · rw [e5]; rfl
        · rw [e6]; rfl
        · rw [e7]; rfl
        · rw [e8]; rfl
      · rw [e9]; rfl
      · rw [e9]; rfl
    · exact absurd hp (by simp)

theorem routeCatch_status_ne_400 (err : Thrown) : (routeCatch err).status ≠ 400 := by
  unfold routeCatch
  split_ifs <;> simp

/-- A 400 from the rest of the route handler comes from one of the three input
checks, all of which return before the model call. -/
theorem routeAfterLimiter_400_no_model (parseZ : JSON → Except Thrown JSON) (req : RouteRequest)
    (h : (routeAfterLimiter parseZ req).1.status = 400) :
    (routeAfterLimiter parseZ req).2 = none := by
  unfold routeAfterLimiter at h ⊢
  cases hb : req.body with
  | error err => rfl
  | ok parsedBody =>
    rw [hb] at h
    simp only at h ⊢
    cases hd : destructureImage parsedBody with
    | error err => rfl
    | ok image =>
      rw [hd] at h
      simp only at h ⊢
      by_cases c1 : (!truthy image || !typeofIsString image) = true
      · rw [if_pos c1]
      · rw [if_neg c1] at h ⊢
        by_cases c2 : (!startsWith (stringValue image) "data:image") = true
        · rw [if_pos c2]
        · rw [if_neg c2] at h ⊢
          cases hs : (splitComma (stringValue image).data)[1]? with
          | none => rfl
          | some base64Data =>
            rw [hs] at h
            simp only at h ⊢
            by_cases c3 : imageSizeOf base64Data > maxSize
            · rw [if_pos c3]
            · rw [if_neg c3] at h
              exfalso
              cases hp : req.provider (createRequest (configuredModel req.envModel)
                  (stringValue image)) with
              | threw err =>
                rw [hp] at h
                exact routeCatch_status_ne_400 _ h
              | malformed =>
                rw [hp] at h
                exact routeCatch_status_ne_400 _ h
              | json parsed =>
                rw [hp] at h
                simp only at h
                cases hz : parseZ parsed with
                | error err =>
                  rw [hz] at h
                  exact routeCatch_status_ne_400 _ h
                | ok validated =>
                  rw [hz] at h
                  simp at h

/-! ## C1: the contract of one call -/

/-- C1: for every map, key and clock value, with `R` the stored time stamps of
the key that are less than 60 000 ms old (none if the key has no entry):
when `R` has 10 or more entries the call returns `false` and the map is
unchanged; otherwise it returns `true` and the map then maps the key to `R`
followed by `now`; in both cases every other key keeps its list. -/
theorem checkRateLimit_contract (m : RateMap) (ip : String) (now : Int) :
    (if 10 ≤ (((mapGet m ip).getD []).filter (fun t => decide (now - 60000 < t))).length then
        checkRateLimit m ip now = (false, m)
      else
        (checkRateLimit m ip now).1 = true ∧
        mapGet (checkRateLimit m ip now).2 ip =
          some (((mapGet m ip).getD []).filter (fun t => decide (now - 60000 < t)) ++ [now])) ∧
    (∀ k, k ≠ ip → mapGet (checkRateLimit m ip now).2 k = mapGet m k) := by
  have hR : ((mapGet m ip).getD []).filter (fun t => decide (now - 60000 < t))
      = recentRequests ((mapGet m ip).getD []) now := by
    unfold recentRequests RATE_LIMIT_WINDOW
    apply List.filter_congr
    intro t _
    simp only [decide_eq_decide]
    omega
  rw [hR]
  by_cases h : 10 ≤ (recentRequests ((mapGet m ip).getD []) now).length
  · have e : checkRateLimit m ip now = (false, m) := by
      simp [checkRateLimit, MAX_REQUESTS, h]
    refine ⟨by simp [h, e], ?_⟩
    intro k _
    rw [e]
  · have e : checkRateLimit m ip now
        = (true, mapSet m ip (recentRequests ((mapGet m ip).getD []) now ++ [now])) := by
      simp [checkRateLimit, MAX_REQUESTS, h]
    refine ⟨?_, ?_⟩
    · rw [if_neg h, e]
      exact ⟨rfl, mapGet_mapSet_same _ _ _⟩
    · intro k hk
      rw [e]
      exact mapGet_mapSet_other _ _ _ _ hk

/-! ## C2: the sliding-window guarantee -/

/-- C2: for every sequence of `checkRateLimit` calls run from the empty map
with non-decreasing clock values, every client key `k` and every instant `T`,
at most 10 of the calls for `k` that returned `true` have their time stamp in
the trailing 60-second window `(T - 60000, T]`. -/
theorem sliding_window_guarantee (calls : List (String × Int))
    (hclock : List.Chain' (fun a b => a ≤ b) (calls.map Prod.snd)) (k : String) (T : Int) :
    windowCount (acceptedTimes calls (runCalls [] calls).1 k) T ≤ 10 := by
  cases calls with
  | nil => simp [acceptedTimes, windowCount]
  | cons call rest =>
    have h := window_invariant k (call :: rest) [] [] call.2
      (fun later _ => by simp [mapGet, recentRequests])
      (fun T2 => by simp [windowCount])
      (by
        simp only [List.map_cons, List.chain_cons]
        exact ⟨le_refl _, hclock⟩)
      T
    simpa using h

/-- C2 at a concrete run: twelve calls of one key, one a second from time 0,
and the window ending at 11000. -/
theorem sliding_window_guarantee_witness :
    List.Chain' (fun a b => a ≤ b) (burstCalls.map Prod.snd) ∧
    windowCount (acceptedTimes burstCalls (runCalls [] burstCalls).1 "10.0.0.1") 11000 ≤ 10 :=
  ⟨by simp [burstCalls], sliding_window_guarantee _ (by simp [burstCalls]) _ _⟩

/-! ## C3: eleven requests within the window -/

/-- C3: for every client key with no recorded requests and every
non-decreasing sequence of 11 request times `t1, mid (9 of them), t11`, all less
than 60 seconds after the first: the first 10 calls pass the rate limiter and
the 11th is turned away, the route handler answering it with HTTP 429; and a
later request at least 60 seconds after `t1` passes the rate limiter again, so
that the route handler answers it with what the rest of the handler produces. -/
theorem eleventh_request_rejected (m : RateMap) (ip : String) (t1 : Int) (mid : List Int)
    (t11 : Int)
    (hfresh : (mapGet m ip).getD [] = [])
    (hlen : mid.length = 9)
    (hclock : List.Chain' (fun a b => a ≤ b) (t1 :: (mid ++ [t11])))
    (hwin : ∀ t ∈ mid ++ [t11], t - t1 < 60000) :
    (runCalls m ((t1 :: (mid ++ [t11])).map (fun t => (ip, t)))).1
        = List.replicate 10 true ++ [false] ∧
    (∀ (parseZ : JSON → Except Thrown JSON) (req : RouteRequest),
        clientKey req.forwarded = ip → req.now = t11 →
        (POST parseZ (runCalls m ((t1 :: mid).map (fun t => (ip, t)))).2 req).response
          = ⟨429, some (.obj [("error",
              .str "Rate limit exceeded. Please try again in a minute.")])⟩) ∧
    (∀ u : Int, 60000 ≤ u - t1 →
        (checkRateLimit (runCalls m ((t1 :: (mid ++ [t11])).map (fun t => (ip, t)))).2 ip u).1
          = true ∧
        ∀ (parseZ : JSON → Except Thrown JSON) (req : RouteRequest),
          clientKey req.forwarded = ip → req.now = u →
          (POST parseZ (runCalls m ((t1 :: (mid ++ [t11])).map (fun t => (ip, t)))).2 req).response
            = (routeAfterLimiter parseZ req).1) := by
  have hchain : List.Chain (fun a b : Int => a ≤ b) t1 (mid ++ [t11]) := hclock
  have hge : ∀ t ∈ mid ++ [t11], t1 ≤ t :=
    fun t ht => List.rel_of_pairwise_cons (List.chain_iff_pairwise.1 hchain) ht
  have hspan : ∀ t ∈ t1 :: mid, t1 ≤ t ∧ t < t1 + 60000 := by
    intro t ht
    rcases List.mem_cons.1 ht with h | h
    · subst h; omega
    · have h1 := hge t (List.mem_append_left _ h)
      have h2 := hwin t (List.mem_append_left _ h)
      omega
  have h11 : t1 ≤ t11 ∧ t11 - t1 < 60000 :=
    ⟨hge t11 (by simp), hwin t11 (by simp)⟩
  obtain ⟨hres, hstored⟩ := runCalls_all_admitted ip t1 (t1 :: mid) m
    (by rw [hfresh]; intro s hs; simp at hs) hspan
    (by rw [hfresh]; simp [hlen])
  rw [hfresh, List.nil_append] at hstored
  have hfull : 10 ≤ (recentRequests ((mapGet (runCalls m ((t1 :: mid).map
      (fun t => (ip, t)))).2 ip).getD []) t11).length := by
    rw [hstored, recentRequests_of_all _ _ (fun s hs => by have := hspan s hs; omega)]
    simp [hlen]
  have hrej := checkRateLimit_of_full _ ip t11 hfull
  have hsplit : (t1 :: (mid ++ [t11])).map (fun t => (ip, t))
      = (t1 :: mid).map (fun t => (ip, t)) ++ [(ip, t11)] := by simp
  have hrun : runCalls m ((t1 :: (mid ++ [t11])).map (fun t => (ip, t)))
      = (List.replicate 10 true ++ [false],
          (runCalls m ((t1 :: mid).map (fun t => (ip, t)))).2) := by
    rw [hsplit, runCalls_append, runCalls_single, hrej, hres]
    simp [hlen]
  refine ⟨by rw [hrun], ?_, ?_⟩
  · intro parseZ req hkey hnow
    rw [POST_of_limited parseZ _ req (by rw [hkey, hnow, hrej])]
    rfl
  · intro u hu
    rw [hrun]
    have hroom : (recentRequests ((mapGet (runCalls m ((t1 :: mid).map
        (fun t => (ip, t)))).2 ip).getD []) u).length < 10 := by
      rw [hstored]
      have hdrop : recentRequests (t1 :: mid) u = recentRequests mid u := by
        have hold : ¬ u - t1 < 60 * 1000 := by omega
        simp only [recentRequests, RATE_LIMIT_WINDOW, List.filter_cons, hold, decide_False]
        rfl
      rw [hdrop]
      have := List.length_filter_le (fun time => decide (u - time < RATE_LIMIT_WINDOW)) mid
      unfold recentRequests
      omega
    have hadm := checkRateLimit_of_room _ ip u hroom
    refine ⟨by rw [hadm], ?_⟩
    intro parseZ req hkey hnow
    rw [POST_of_admitted parseZ _ req (by rw [hkey, hnow, hadm])]

/-- C3 at a concrete input: a new client sending one request a second. -/
theorem eleventh_request_rejected_witness :
    (mapGet [] "10.0.0.1").getD [] = [] ∧
    (runCalls [] (([0, 1000, 2000, 3000, 4000, 5000, 6000, 7000, 8000, 9000, 10000] :
        List Int).map (fun t => ("10.0.0.1", t)))).1
      = List.replicate 10 true ++ [false] :=
  ⟨rfl, (eleventh_request_rejected [] "10.0.0.1" 0
    [1000, 2000, 3000, 4000, 5000, 6000, 7000, 8000, 9000] 10000 rfl rfl
    (by simp) (by decide)).1⟩

/-! ## C4: a missing, non-string or wrongly prefixed image -/

/-- C4 fails as stated, at three inputs. The empty string is a string that
does not start with `data:image`, and the function handler answers it with
"Image data is required", not with the invalid-format message; the route
handler answers a payload without `image` with 429 when the client has used
its 10 requests; and the parsed body `null`, which has no `image`, is answered
with 500. -/
theorem bad_image_counterexample :
    startsWith "" "data:image" = false ∧
    (handler (postEvent (.obj [("image", .str "")]) .malformed)).response
      = ⟨400, some (.obj [("error", .str "Image data is required")])⟩ ∧
    (POST factCheckZ fullMap (postRequest 1000 (.obj []) .malformed)).response.status = 429 ∧
    (handler (postEvent .null .malformed)).response.status = 500 :=
  ⟨rfl, rfl, rfl, rfl⟩

/-- C4 as amended: for every parsed body other than `null`, with `image` the
property read from it: when `image` is missing, is not a string or is the
empty string, the answer is 400 "Image data is required"; when `image` is a
non-empty string that does not start with `data:image`, the answer is 400 with
the invalid-format message. This is the answer of the function handler to a
POST, and of the route handler whenever the rate limiter admits the request
(it answers 429 otherwise); in neither handler is the model called. -/
theorem bad_image_rejected (body : JSON) (image : Option JSON)
    (hbody : destructureImage body = .ok image) :
    ((typeofIsString image = false ∨ image = some (.str "")) →
      (∀ event : FunctionEvent, event.httpMethod = "POST" → event.body = .ok body →
        handler event
          = ⟨⟨400, some (.obj [("error", .str "Image data is required")])⟩, none⟩) ∧
      (∀ (parseZ : JSON → Except Thrown JSON) (m : RateMap) (req : RouteRequest),
        req.body = .ok body →
        (POST parseZ m req).modelRequest = none ∧
        (POST parseZ m req).response =
          if (checkRateLimit m (clientKey req.forwarded) req.now).1 = true then
            ⟨400, some (.obj [("error", .str "Image data is required")])⟩
          else
            ⟨429, some (.obj [("error",
              .str "Rate limit exceeded. Please try again in a minute.")])⟩)) ∧
    (∀ s : String, image = some (.str s) → s ≠ "" → startsWith s "data:image" = false →
      (∀ event : FunctionEvent, event.httpMethod = "POST" → event.body = .ok body →
        handler event
          = ⟨⟨400, some (.obj [("error",
              .str "Invalid image format. Please provide a valid data URL.")])⟩, none⟩) ∧
      (∀ (parseZ : JSON → Except Thrown JSON) (m : RateMap) (req : RouteRequest),
        req.body = .ok body →
        (POST parseZ m req).modelRequest = none ∧
        (POST parseZ m req).response =
          if (checkRateLimit m (clientKey req.forwarded) req.now).1 = true then
            ⟨400, some (.obj [("error",
              .str "Invalid image format. Please provide a valid data URL.")])⟩
          else
            ⟨429, some (.obj [("error",
              .str "Rate limit exceeded. Please try again in a minute.")])⟩)) := by
  refine ⟨?_, ?_⟩
  · intro hbad
    have hcond := not_accepted_of_bad image hbad
    refine ⟨fun event hm hb => handler_required event body image hm hb hbody hcond, ?_⟩
    intro parseZ m req hb
    rw [POST_eq, routeAfterLimiter_required parseZ req body image hb hbody hcond]
    cases (checkRateLimit m (clientKey req.forwarded) req.now).1 <;> simp [rateLimitResponse]
  · intro s hs hne hstart
    subst hs
    have hcond := accepted_of_nonempty s hne
    refine ⟨fun event hm hb =>
      handler_format event body _ hm hb hbody hcond hstart, ?_⟩
    intro parseZ m req hb
    rw [POST_eq, routeAfterLimiter_format parseZ req body _ hb hbody hcond hstart]
    cases (checkRateLimit m (clientKey req.forwarded) req.now).1 <;> simp [rateLimitResponse]

/-- C4 as amended, at a concrete input: the body `{"image": 5}`. -/
theorem bad_image_rejected_witness :
    destructureImage (.obj [("image", .num 5)]) = .ok (some (.num 5)) ∧
    handler (postEvent (.obj [("image", .num 5)]) .malformed)
      = ⟨⟨400, some (.obj [("error", .str "Image data is required")])⟩, none⟩ :=
  ⟨rfl, ((bad_image_rejected (.obj [("image", .num 5)]) (some (.num 5)) rfl).1
    (Or.inl rfl)).1 _ rfl rfl⟩

/-! ## C5: the size ceiling -/

/-- C5 fails as stated, at two inputs, both carrying a base64 payload of
10 485 762 bytes. In the route handler a client that has used its 10 requests
sends `data:image/png;base64,<payload>` and is answered 429, not 400. And the
data URL `data:image/png;a=1,2;base64,<payload>`, whose header has a comma of
its own, passes the size check in both handlers, which measure the text
`2;base64` between the first two commas: the model is called and, the provider
answering with a conforming result, the answer is 200. -/
theorem oversized_image_counterexample :
    IsBase64Of bigPayload 10485762 ∧ 10 * 1024 * 1024 < 10485762 ∧
    (POST factCheckZ fullMap (postRequest 1000
      (.obj [("image", .str (dataUrl "/png;base64".data bigPayload))]) .malformed)).response
      = ⟨429, some (.obj [("error",
          .str "Rate limit exceeded. Please try again in a minute.")])⟩ ∧
    (splitComma commaImage.data)[1]? = some "2;base64".data ∧
    imageSizeOf "2;base64".data = 6 ∧
    (handler (postEvent (.obj [("image", .str commaImage)])
      (.json (.obj conformingFields)))).response.status = 200 ∧
    (handler (postEvent (.obj [("image", .str commaImage)])
      (.json (.obj conformingFields)))).modelRequest
      = some (createRequest "gpt-4o" commaImage) ∧
    (POST factCheckZ [] (postRequest 1000 (.obj [("image", .str commaImage)])
      (.json (.obj conformingFields)))).response.status = 200 ∧
    (POST factCheckZ [] (postRequest 1000 (.obj [("image", .str commaImage)])
      (.json (.obj conformingFields)))).modelRequest
      = some (createRequest "gpt-4o" commaImage) := by
  refine ⟨bigPayload_base64, by decide, ?_, commaImage_segment, by decide, ?_, ?_, ?_, ?_⟩
  · rw [POST_of_limited factCheckZ fullMap (postRequest 1000
      (.obj [("image", .str (dataUrl "/png;base64".data bigPayload))]) .malformed) rfl]
    rfl
  · rw [handler_valid (postEvent (.obj [("image", .str commaImage)])
      (.json (.obj conformingFields))) _ commaImage rfl rfl commaImage_wellFormed]
    rfl
  · rw [handler_valid (postEvent (.obj [("image", .str commaImage)])
      (.json (.obj conformingFields))) _ commaImage rfl rfl commaImage_wellFormed]
    rfl
  · rw [POST_of_admitted factCheckZ [] (postRequest 1000 (.obj [("image", .str commaImage)])
      (.json (.obj conformingFields))) rfl,
      routeAfterLimiter_valid factCheckZ (postRequest 1000 (.obj [("image", .str commaImage)])
      (.json (.obj conformingFields))) _ commaImage rfl commaImage_wellFormed]
    rfl
  · rw [POST_of_admitted factCheckZ [] (postRequest 1000 (.obj [("image", .str commaImage)])
      (.json (.obj conformingFields))) rfl,
      routeAfterLimiter_valid factCheckZ (postRequest 1000 (.obj [("image", .str commaImage)])
      (.json (.obj conformingFields))) _ commaImage rfl commaImage_wellFormed]
    rfl

/-- C5 as amended: for every parsed body whose `image` is a data URL
`data:image<header>,<payload>` followed by any text `rest`, where no comma
stands before the comma that starts the payload (the header is free of commas,
whatever subtype and parameters it declares) and the payload is a padded
base64 text of more than 10 MiB of bytes: the function handler answers a POST
with 400 "Image too large", and so does the route handler whenever the rate
limiter admits the request (it answers 429 otherwise); in neither handler is
the model called. A data URL with a comma in its header is not covered. -/
theorem oversized_image_rejected (body : JSON) (header payload rest : List Char) (n : Nat)
    (hbody : destructureImage body = .ok (some (.str (dataUrlThen header payload rest))))
    (hheader : ∀ c ∈ header, c ≠ ',')
    (hpayload : IsBase64Of payload n)
    (hbig : 10 * 1024 * 1024 < n) :
    (∀ event : FunctionEvent, event.httpMethod = "POST" → event.body = .ok body →
      handler event = ⟨⟨400, some (.obj [("error",
          .str "Image too large. Please use an image under 10MB.")])⟩, none⟩) ∧
    (∀ (parseZ : JSON → Except Thrown JSON) (m : RateMap) (req : RouteRequest),
      req.body = .ok body →
      (POST parseZ m req).modelRequest = none ∧
      (POST parseZ m req).response =
        if (checkRateLimit m (clientKey req.forwarded) req.now).1 = true then
          ⟨400, some (.obj [("error",
            .str "Image too large. Please use an image under 10MB.")])⟩
        else
          ⟨429, some (.obj [("error",
            .str "Rate limit exceeded. Please try again in a minute.")])⟩) := by
  have hseg := dataUrlThen_segment header payload rest hheader
    (fun c hc => isBase64Char_ne_comma c (hpayload.1 c hc))
  have hsize : imageSizeOf (payload ++ rest.takeWhile (fun c => decide (c ≠ ','))) > maxSize := by
    have h1 := imageSizeOf_base64 payload n hpayload
    have h2 : maxSize = 10 * 1024 * 1024 := rfl
    have h3 := imageSizeOf_append_le payload (rest.takeWhile (fun c => decide (c ≠ ',')))
    omega
  refine ⟨fun event hm hb => handler_too_large event body _ _ hm hb hbody
    (dataUrlThen_ne_empty _ _ _) (dataUrlThen_startsWith _ _ _) hseg hsize, ?_⟩
  intro parseZ m req hb
  rw [POST_eq, routeAfterLimiter_too_large parseZ req body _ _ hb hbody
    (dataUrlThen_ne_empty _ _ _) (dataUrlThen_startsWith _ _ _) hseg hsize]
  cases (checkRateLimit m (clientKey req.forwarded) req.now).1 <;> simp [rateLimitResponse]

/-- C5 as amended, at a concrete input: a PNG data URL whose payload decodes to
10 485 762 bytes, sent to the function handler with nothing after the payload. -/
theorem oversized_image_rejected_witness :
    IsBase64Of bigPayload 10485762 ∧ 10 * 1024 * 1024 < 10485762 ∧
    dataUrlThen "/png;base64".data bigPayload [] = dataUrl "/png;base64".data bigPayload ∧
    handler (postEvent (.obj [("image", .str (dataUrlThen "/png;base64".data bigPayload []))])
      .malformed)
      = ⟨⟨400, some (.obj [("error",
          .str "Image too large. Please use an image under 10MB.")])⟩, none⟩ :=
  ⟨bigPayload_base64, by decide, dataUrlThen_nil _ _,
    (oversized_image_rejected
      (.obj [("image", .str (dataUrlThen "/png;base64".data bigPayload []))])
      "/png;base64".data bigPayload [] 10485762 rfl (by decide) bigPayload_base64
      (by decide)).1 _ rfl rfl⟩

/-! ## C6: input validation and exceptions -/

/-- C6 fails on the code: the body `{"image": "data:image/png;base64"}`, whose
image starts with `data:image` and has no comma, makes both handlers read
`length` of `undefined`; the `TypeError` reaches the `catch` block and the
answer is 500, not 400. The parsed body `null` ends the same way. -/
theorem validation_surfaces_500 :
    handler (postEvent noCommaBody .malformed)
      = ⟨⟨500, some (.obj [("error",
          .str "Analysis failed. Please try again or contact support if the problem persists.")])⟩,
          none⟩ ∧
    (POST factCheckZ [] (postRequest 1000 noCommaBody .malformed)).response
      = ⟨500, some (.obj [("error",
          .str "Analysis failed. Please try again or contact support if the problem persists.")])⟩ ∧
    (handler (postEvent .null .malformed)).response.status = 500 ∧
    (POST factCheckZ [] (postRequest 1000 .null .malformed)).response.status = 500 :=
  ⟨rfl, rfl, rfl, rfl⟩

/-! ## C7: the error mapping of the route handler -/

/-- C7: the `catch` block of the route handler is a table applied in this
order: a Zod error gives 422 with the "invalid response format" message and
the validation details, whatever `code` it carries; otherwise the code
`insufficient_quota` gives 503; otherwise the code `rate_limit_exceeded` gives
429; every other thrown value gives 500 with one fixed message. The handler
answers through this table whatever is thrown once the rate limiter has
admitted the request: by reading the body, by the model call, by the parse of
the model output (always 500), or by the validator. -/
theorem error_mapping_table (err : Thrown) :
    (err.isZodError = true →
      routeCatch err = ⟨422, some (.obj [("error", .str "Invalid response format from AI service"),
        ("details", err.flatten)])⟩) ∧
    (err.isZodError = false → err.code = some "insufficient_quota" →
      routeCatch err = ⟨503, some (.obj [("error",
        .str "Service temporarily unavailable. Please try again later.")])⟩) ∧
    (err.isZodError = false → err.code = some "rate_limit_exceeded" →
      routeCatch err = ⟨429, some (.obj [("error",
        .str "Service is busy. Please try again in a few minutes.")])⟩) ∧
    (err.isZodError = false → err.code ≠ some "insufficient_quota" →
      err.code ≠ some "rate_limit_exceeded" →
      routeCatch err = ⟨500, some (.obj [("error",
        .str "Analysis failed. Please try again or contact support if the problem persists.")])⟩) ∧
    (∀ (parseZ : JSON → Except Thrown JSON) (m : RateMap) (req : RouteRequest),
      (checkRateLimit m (clientKey req.forwarded) req.now).1 = true →
      req.body = .error err →
      (POST parseZ m req).response = routeCatch err) ∧
    (∀ (parseZ : JSON → Except Thrown JSON) (m : RateMap) (req : RouteRequest)
      (body : JSON) (image : String),
      (checkRateLimit m (clientKey req.forwarded) req.now).1 = true →
      req.body = .ok body → WellFormed body image →
      (req.provider (createRequest (configuredModel req.envModel) image) = .threw err →
        (POST parseZ m req).response = routeCatch err) ∧
      (req.provider (createRequest (configuredModel req.envModel) image) = .malformed →
        (POST parseZ m req).response = ⟨500, some (.obj [("error",
          .str "Analysis failed. Please try again or contact support if the problem persists.")])⟩) ∧
      (∀ parsed : JSON,
        req.provider (createRequest (configuredModel req.envModel) image) = .json parsed →
        parseZ parsed = .error err →
        (POST parseZ m req).response = routeCatch err)) := by
  refine ⟨?_, ?_, ?_, ?_, ?_, ?_⟩
  · intro h
    simp [routeCatch, h]
  · intro h hc
    simp [routeCatch, h, hc]
  · intro h hc
    simp [routeCatch, h, hc]
  · intro h h1 h2
    simp [routeCatch, h, h1, h2]
  · intro parseZ m req hadm hb
    rw [POST_of_admitted parseZ m req hadm]
    simp [routeAfterLimiter, hb]
  · intro parseZ m req body image hadm hb hwf
    rw [POST_of_admitted parseZ m req hadm, routeAfterLimiter_valid parseZ req body image hb hwf]
    refine ⟨?_, ?_, ?_⟩
    · intro hp
      simp [hp]
    · intro hp
      simp [hp, routeCatch, syntaxError]
    · intro parsed hp hz
      simp [hp, hz]

/-! ## C8: a provider answer that violates the FactCheckResult shape -/

/-- C8 fails on the code in the function handler: the provider answers a
well-formed request with JSON that has no `report`; the validator rejects that
JSON naming `report`, and the route handler answers 422 with those details,
but the function handler, which does not validate, answers 200. -/
theorem function_handler_skips_validation :
    WellFormed smallImageBody "data:image/png;base64,AAAA" ∧
    factCheckZ missingReport = .error (zodError [] ["report"]) ∧
    (POST factCheckZ [] (postRequest 1000 smallImageBody (.json missingReport))).response
      = ⟨422, some (.obj [("error", .str "Invalid response format from AI service"),
          ("details", .obj [("formErrors", .arr []),
            ("fieldErrors", .obj [("report", .arr [.str "Invalid input"])])])])⟩ ∧
    (handler (postEvent smallImageBody (.json missingReport))).response.status = 200 := by
  refine ⟨smallImageBody_wellFormed, ?_, ?_, rfl⟩
  · rfl
  · rfl

/-! ## C9: a conforming provider answer -/

/-- C9: for every well-formed request to which the provider answers with
conforming JSON (the validator accepts it), the route handler, once the rate
limiter has admitted the request, and the function handler both answer 200
with a body in which every FactCheckResult field has the value it has in the
provider JSON: the eight plain fields are equal (nulls stay null, sequences keep
their order), and `sources` has the same titles and urls in the same order; in
the function handler every property other than `analyzedAt`, `model` and
`processingTime` is equal. In both, `model` is the configured identifier and
`analyzedAt` the server time stamp, whatever the provider JSON carries under
those names. The configured identifier is `gpt-4o` without the environment
override and the override when it is set to a non-empty string. -/
theorem conforming_result_preserved (body : JSON) (image : String)
    (kvs : List (String × JSON)) (validated : JSON)
    (hwf : WellFormed body image) (hconf : factCheckZ (.obj kvs) = .ok validated) :
    (∀ (m : RateMap) (req : RouteRequest),
      (checkRateLimit m (clientKey req.forwarded) req.now).1 = true →
      req.body = .ok body →
      req.provider (createRequest (configuredModel req.envModel) image) = .json (.obj kvs) →
      ∃ fields, (POST factCheckZ m req).response = ⟨200, some (.obj fields)⟩ ∧
        (∀ f ∈ ["productName", "company", "keyNumbers", "measurableFacts", "category",
            "briefContext", "truthScore", "report"], objGet fields f = objGet kvs f) ∧
        sourcesView (objGet fields "sources") = sourcesView (objGet kvs "sources") ∧
        (sourcesView (objGet kvs "sources")).isSome = true ∧
        objGet fields "model" = some (.str (configuredModel req.envModel)) ∧
        objGet fields "analyzedAt" = some (.str req.isoNow)) ∧
    (∀ event : FunctionEvent, event.httpMethod = "POST" → event.body = .ok body →
      event.provider (createRequest (configuredModel event.envModel) image) = .json (.obj kvs) →
      ∃ fields, (handler event).response = ⟨200, some (.obj fields)⟩ ∧
        (∀ f, f ≠ "analyzedAt" → f ≠ "model" → f ≠ "processingTime" →
          objGet fields f = objGet kvs f) ∧
        objGet fields "model" = some (.str (configuredModel event.envModel)) ∧
        objGet fields "analyzedAt" = some (.str event.isoNow)) ∧
    configuredModel none = "gpt-4o" ∧
    (∀ override : String, override ≠ "" → configuredModel (some override) = override) := by
  obtain ⟨hplain, hsources, hsome⟩ := factCheckZ_preserves kvs validated hconf
  refine ⟨?_, ?_, rfl, ?_⟩
  · intro m req hadm hb hp
    refine ⟨resultWithMetadata validated req.isoNow (configuredModel req.envModel)
      req.clock1 req.clock2, ?_, ?_, ?_, hsome, ?_, ?_⟩
    · rw [POST_of_admitted factCheckZ m req hadm,
        routeAfterLimiter_valid factCheckZ req body image hb hwf]
      simp only [hp, hconf]
    · intro f hf
      rw [← hplain f hf]
      simp only [List.mem_cons, List.mem_singleton, List.not_mem_nil, or_false] at hf
      apply resultWithMetadata_other
      · rcases hf with hf | hf | hf | hf | hf | hf | hf | hf <;> subst hf <;> decide
      · rcases hf with hf | hf | hf | hf | hf | hf | hf | hf <;> subst hf <;> decide
      · rcases hf with hf | hf | hf | hf | hf | hf | hf | hf <;> subst hf <;> decide
    · rw [← hsources]
      rw [resultWithMetadata_other _ _ _ _ _ "sources" (by decide) (by decide) (by decide)]
    · exact resultWithMetadata_model _ _ _ _ _
    · exact resultWithMetadata_analyzedAt _ _ _ _ _
  · intro event hm hb hp
    refine ⟨resultWithMetadata (.obj kvs) event.isoNow (configuredModel event.envModel)
      event.clock1 event.clock2, ?_, ?_, ?_, ?_⟩
    · rw [handler_valid event body image hm hb hwf]
      simp only [hp]
    · intro f h1 h2 h3
      rw [resultWithMetadata_other _ _ _ _ _ f h1 h2 h3]
      rfl
    · exact resultWithMetadata_model _ _ _ _ _
    · exact resultWithMetadata_analyzedAt _ _ _ _ _
  · intro override h
    simp [configuredModel, h]

/-- C9 at a concrete input: the provider answers a small well-formed request
with conforming JSON whose `truthScore` is 73 and which has a property `model`
of its own; the route handler answers 200 with `truthScore` 73 and `model`
`gpt-4o`. -/
theorem conforming_result_preserved_witness :
    WellFormed smallImageBody "data:image/png;base64,AAAA" ∧
    (∃ validated, factCheckZ (.obj conformingFields) = .ok validated) ∧
    ∃ fields,
      (POST factCheckZ [] (postRequest 1000 smallImageBody
        (.json (.obj conformingFields)))).response = ⟨200, some (.obj fields)⟩ ∧
      objGet fields "truthScore" = some (.num 73) ∧
      objGet fields "model" = some (.str "gpt-4o") :=
  ⟨smallImageBody_wellFormed, ⟨_, rfl⟩,
    match (conforming_result_preserved smallImageBody "data:image/png;base64,AAAA"
      conformingFields _ smallImageBody_wellFormed rfl).1 []
      (postRequest 1000 smallImageBody (.json (.obj conformingFields))) rfl rfl rfl with
    | ⟨fields, h1, h2, _, _, h5, _⟩ =>
      ⟨fields, h1, (h2 "truthScore" (by simp)).trans rfl, h5⟩⟩

/-! ## C10: what an input-validation failure leaves behind -/

/-- C10 fails as stated: the rate limiter runs first. A first request without
`image` is answered 400, and the map, empty before, then holds the request
under the client key. -/
theorem validation_failure_counterexample :
    (POST factCheckZ [] (postRequest 1000 (.obj []) .malformed)).response
      = ⟨400, some (.obj [("error", .str "Image data is required")])⟩ ∧
    (POST factCheckZ [] (postRequest 1000 (.obj []) .malformed)).rateLimit
      = [("unknown", [1000])] ∧
    (POST factCheckZ [] (postRequest 1000 (.obj []) .malformed)).rateLimit ≠ [] :=
  ⟨rfl, rfl, by decide⟩

/-- C10 as amended: the Rate Limiter runs before the Input Validator, and the
validation steps themselves leave the map alone. For every request answered
400, the map after the request is the map `checkRateLimit` leaves: the rate
limiter admitted the request, the client key maps to its recent requests
followed by this one (the request has used one of the client's 10 requests per
window), and every other key keeps its list. The model is not called. -/
theorem validation_failure_effect (parseZ : JSON → Except Thrown JSON) (m : RateMap)
    (req : RouteRequest) (h400 : (POST parseZ m req).response.status = 400) :
    (POST parseZ m req).rateLimit = (checkRateLimit m (clientKey req.forwarded) req.now).2 ∧
    (checkRateLimit m (clientKey req.forwarded) req.now).1 = true ∧
    mapGet (POST parseZ m req).rateLimit (clientKey req.forwarded)
      = some (recentRequests ((mapGet m (clientKey req.forwarded)).getD []) req.now
          ++ [req.now]) ∧
    (∀ k, k ≠ clientKey req.forwarded → mapGet (POST parseZ m req).rateLimit k = mapGet m k) ∧
    (POST parseZ m req).modelRequest = none := by
  have hadm : (checkRateLimit m (clientKey req.forwarded) req.now).1 = true := by
    cases hl : (checkRateLimit m (clientKey req.forwarded) req.now).1 with
    | true => rfl
    | false =>
      rw [POST_of_limited parseZ m req hl] at h400
      simp [rateLimitResponse] at h400
  have hroom : (recentRequests ((mapGet m (clientKey req.forwarded)).getD []) req.now).length
      < 10 := by
    by_contra hfull
    rw [checkRateLimit_of_full m _ req.now (by omega)] at hadm
    simp at hadm
  have hmap : (POST parseZ m req).rateLimit
      = (checkRateLimit m (clientKey req.forwarded) req.now).2 := by
    rw [POST_of_admitted parseZ m req hadm]
  refine ⟨hmap, hadm, ?_, ?_, ?_⟩
  · rw [hmap, checkRateLimit_of_room m _ req.now hroom]
    exact mapGet_mapSet_same _ _ _
  · intro k hk
    rw [hmap]
    exact checkRateLimit_other m _ k req.now hk
  · rw [POST_of_admitted parseZ m req hadm] at h400 ⊢
    simp only at h400 ⊢
    exact routeAfterLimiter_400_no_model parseZ req h400

/-- C10 as amended, at a concrete input: a first request without `image`. -/
theorem validation_failure_effect_witness :
    (POST factCheckZ [] (postRequest 1000 (.obj []) .malformed)).response.status = 400 ∧
    mapGet (POST factCheckZ [] (postRequest 1000 (.obj []) .malformed)).rateLimit "unknown"
      = some [1000] :=
  ⟨rfl, (validation_failure_effect factCheckZ [] (postRequest 1000 (.obj []) .malformed)
    rfl).2.2.1⟩

/-! ## C11: the client key -/

/-- C11 fails as stated for a header that is present and empty: the code tests
the truthiness of the header value, so the empty value gives the key
`unknown`, not the (empty) text before the first comma. -/
theorem client_key_counterexample :
    clientKey (some "") = "unknown" ∧
    clientKey (some "") ≠ String.mk ("".data.takeWhile (fun c => decide (c ≠ ','))) :=
  ⟨rfl, by decide⟩

/-- C11 as amended: for every header value `h` that is present and not empty,
the key is the text of `h` before its first comma, which is all of `h` when
`h` has no comma; when the header is absent, and also when its value is
empty, the key is the literal `unknown`. This key is the one the route handler
hands to `checkRateLimit`. -/
theorem client_key_derivation (h : String) (hne : h ≠ "") :
    clientKey (some h) = String.mk (h.data.takeWhile (fun c => decide (c ≠ ','))) ∧
    ((∀ c ∈ h.data, c ≠ ',') → clientKey (some h) = h) ∧
    clientKey none = "unknown" ∧
    clientKey (some "") = "unknown" ∧
    (∀ (parseZ : JSON → Except Thrown JSON) (m : RateMap) (req : RouteRequest),
      req.forwarded = some h →
      (POST parseZ m req).rateLimit
        = (checkRateLimit m (String.mk (h.data.takeWhile (fun c => decide (c ≠ ',')))) req.now).2 ∧
      ((checkRateLimit m (String.mk (h.data.takeWhile (fun c => decide (c ≠ ',')))) req.now).1
          = false →
        (POST parseZ m req).response = rateLimitResponse)) ∧
    (∀ (parseZ : JSON → Except Thrown JSON) (m : RateMap) (req : RouteRequest),
      req.forwarded = none →
      (POST parseZ m req).rateLimit = (checkRateLimit m "unknown" req.now).2) := by
  have hkey : clientKey (some h)
      = String.mk (h.data.takeWhile (fun c => decide (c ≠ ','))) := by
    simp only [clientKey, hne, if_false, splitComma_head]
  refine ⟨hkey, ?_, rfl, rfl, ?_, ?_⟩
  · intro hno
    rw [hkey, takeWhile_of_no_comma _ hno]
  · intro parseZ m req hf
    have hk : clientKey req.forwarded
        = String.mk (h.data.takeWhile (fun c => decide (c ≠ ','))) := by rw [hf, hkey]
    refine ⟨?_, ?_⟩
    · rw [POST_eq, hk]
      split <;> rfl
    · intro hl
      rw [← hk] at hl
      rw [POST_of_limited parseZ m req hl]
  · intro parseZ m req hf
    have hk : clientKey req.forwarded = "unknown" := by rw [hf]; rfl
    rw [POST_eq, hk]
    split <;> rfl

/-- C11 as amended, at a concrete input: a header naming a client and a proxy. -/
theorem client_key_derivation_witness :
    "203.0.113.7, 10.0.0.1" ≠ "" ∧ clientKey (some "203.0.113.7, 10.0.0.1") = "203.0.113.7" :=
  ⟨by decide, (client_key_derivation "203.0.113.7, 10.0.0.1" (by decide)).1.trans rfl⟩

/-! ## C14: the pruning boundary -/

theorem mem_recentRequests (l : List Int) (now t : Int) :
    t ∈ recentRequests l now ↔ t ∈ l ∧ now - 60000 < t := by
  unfold recentRequests RATE_LIMIT_WINDOW
  rw [List.mem_filter]
  simp only [decide_eq_true_eq]
  constructor
  · intro h
    exact ⟨h.1, by omega⟩
  · intro h
    exact ⟨h.1, by omega⟩

/-- C14 fails as stated at the boundary: a request recorded at time 0 is
dropped at time 60000, although 0 is not less than 60000 - 60000; a client
whose 10 requests were all recorded exactly 60 000 ms ago is admitted, and the
stored list then holds the new request alone. -/
theorem pruning_boundary_counterexample :
    (0 : Int) ∉ recentRequests [0] 60000 ∧
    ¬ ((0 : Int) < 60000 - 60000) ∧
    checkRateLimit fullMap "unknown" 60000 = (true, [("unknown", [60000])]) :=
  ⟨by decide, by decide, rfl⟩

/-- C14 as amended: a stored time stamp `t` is dropped at time `now` if and
only if `t ≤ now - 60000`, that is if it is at least 60 000 ms old; so a
request recorded exactly 60 000 ms before `now` is dropped and does not count
toward the limit of 10. The call is admitted exactly when fewer than 10
stored time stamps are later than `now - 60000`, and the list stored by an
admitted call holds exactly those time stamps and `now`. -/
theorem pruning_boundary (m : RateMap) (ip : String) (now : Int) :
    (∀ t, t ∈ (mapGet m ip).getD [] →
      (t ∉ recentRequests ((mapGet m ip).getD []) now ↔ t ≤ now - 60000)) ∧
    (now - 60000 ∉ recentRequests ((mapGet m ip).getD []) now) ∧
    ((checkRateLimit m ip now).1 = true ↔
      (((mapGet m ip).getD []).filter (fun t => decide (¬ t ≤ now - 60000))).length < 10) ∧
    ((checkRateLimit m ip now).1 = true →
      ∀ t, t ∈ (mapGet (checkRateLimit m ip now).2 ip).getD [] ↔
        (t ∈ (mapGet m ip).getD [] ∧ ¬ t ≤ now - 60000) ∨ t = now) := by
  have hfilter : ((mapGet m ip).getD []).filter (fun t => decide (¬ t ≤ now - 60000))
      = recentRequests ((mapGet m ip).getD []) now := by
    unfold recentRequests RATE_LIMIT_WINDOW
    apply List.filter_congr
    intro t _
    simp only [decide_eq_decide]
    omega
  refine ⟨?_, ?_, ?_, ?_⟩
  · intro t ht
    rw [mem_recentRequests]
    constructor
    · intro h
      by_contra hc
      exact h ⟨ht, by omega⟩
    · intro h hc
      omega
  · rw [mem_recentRequests]
    intro h
    omega
  · rw [hfilter]
    constructor
    · intro h
      by_contra hc
      rw [checkRateLimit_of_full m ip now (by omega)] at h
      simp at h
    · intro h
      rw [checkRateLimit_of_room m ip now h]
  · intro hadm t
    have hroom : (recentRequests ((mapGet m ip).getD []) now).length < 10 := by
      by_contra hc
      rw [checkRateLimit_of_full m ip now (by omega)] at hadm
      simp at hadm
    rw [checkRateLimit_of_room m ip now hroom, mapGet_mapSet_same]
    simp only [Option.getD_some, List.mem_append, List.mem_singleton, mem_recentRequests]
    constructor
    · rintro (⟨h1, h2⟩ | h)
      · exact Or.inl ⟨h1, by omega⟩
      · exact Or.inr h
    · rintro (⟨h1, h2⟩ | h)
      · exact Or.inl ⟨h1, by omega⟩
      · exact Or.inr h

/-! ## C15: bounded per-client state -/

theorem mem_mapSet (m : RateMap) (ip : String) (v : List Int) (p : String × List Int)
    (h : p ∈ mapSet m ip v) : p ∈ m ∨ p = (ip, v) := by
  induction m with
  | nil =>
    simp only [mapSet, List.mem_singleton] at h
    exact Or.inr h
  | cons q rest ih =>
    obtain ⟨k, w⟩ := q
    by_cases hk : k = ip
    · simp only [mapSet, hk, if_true, List.mem_cons] at h
      rcases h with h | h
      · exact Or.inr h
      · exact Or.inl (List.mem_cons_of_mem _ h)
    · simp only [mapSet, hk, if_false, List.mem_cons] at h
      rcases h with h | h
      · exact Or.inl (by rw [h]; exact List.mem_cons_self _ _)
      · rcases ih h with h2 | h2
        · exact Or.inl (List.mem_cons_of_mem _ h2)
        · exact Or.inr h2

theorem mapGet_mem (m : RateMap) (ip : String) (v : List Int) (h : mapGet m ip = some v) :
    (ip, v) ∈ m := by
  induction m with
  | nil => simp [mapGet] at h
  | cons q rest ih =>
    obtain ⟨k, w⟩ := q
    by_cases hk : k = ip
    · simp only [mapGet, hk, if_true, Option.some.injEq] at h
      rw [hk, h]
      exact List.mem_cons_self _ _
    · simp only [mapGet, hk, if_false] at h
      exact List.mem_cons_of_mem _ (ih h)

/-- The stored lists stay between 1 and 10 entries long along any calls. -/
theorem runCalls_bounded (calls : List (String × Int)) :
    ∀ m : RateMap, (∀ p ∈ m, 1 ≤ p.2.length ∧ p.2.length ≤ 10) →
      ∀ p ∈ (runCalls m calls).2, 1 ≤ p.2.length ∧ p.2.length ≤ 10 := by
  induction calls with
  | nil => intro m hm p hp; exact hm p hp
  | cons call rest ih =>
    obtain ⟨ip, now⟩ := call
    intro m hm
    apply ih
    by_cases hf : 10 ≤ (recentRequests ((mapGet m ip).getD []) now).length
    · rw [checkRateLimit_of_full m ip now hf]
      exact hm
    · rw [checkRateLimit_of_room m ip now (by omega)]
      intro p hp
      rcases mem_mapSet _ _ _ _ hp with h | h
      · exact hm p h
      · rw [h]
        simp only [List.length_append, List.length_singleton]
        omega

/-- With a clock that does not fall below `c`, the stored lists stay in
non-decreasing order, and no stored time stamp is later than the clock. -/
theorem runCalls_sorted (calls : List (String × Int)) :
    ∀ (m : RateMap) (c : Int),
      (∀ p ∈ m, List.Pairwise (fun a b => a ≤ b) p.2 ∧ ∀ t ∈ p.2, t ≤ c) →
      List.Chain (fun a b => a ≤ b) c (calls.map Prod.snd) →
      ∀ p ∈ (runCalls m calls).2, List.Pairwise (fun a b => a ≤ b) p.2 := by
  induction calls with
  | nil => intro m c hm _ p hp; exact (hm p hp).1
  | cons call rest ih =>
    obtain ⟨ip, now⟩ := call
    intro m c hm hchain
    simp only [List.map_cons, List.chain_cons] at hchain
    obtain ⟨hc, hchain⟩ := hchain
    apply ih _ now _ hchain
    have hold : ∀ p ∈ m, List.Pairwise (fun a b => a ≤ b) p.2 ∧ ∀ t ∈ p.2, t ≤ now :=
      fun p hp => ⟨(hm p hp).1, fun t ht => le_trans ((hm p hp).2 t ht) hc⟩
    by_cases hf : 10 ≤ (recentRequests ((mapGet m ip).getD []) now).length
    · rw [checkRateLimit_of_full m ip now hf]
      exact hold
    · rw [checkRateLimit_of_room m ip now (by omega)]
      have hstored : List.Pairwise (fun a b => a ≤ b) ((mapGet m ip).getD []) ∧
          ∀ t ∈ (mapGet m ip).getD [], t ≤ now := by
        cases hg : mapGet m ip with
        | none => simp
        | some l => exact hold (ip, l) (mapGet_mem m ip l hg)
      intro p hp
      rcases mem_mapSet _ _ _ _ hp with h | h
      · exact hold p h
      · rw [h]
        have hrecent : ∀ t ∈ recentRequests ((mapGet m ip).getD []) now, t ≤ now :=
          fun t ht => hstored.2 t ((mem_recentRequests _ _ _).1 ht).1
        refine ⟨?_, ?_⟩
        · rw [List.pairwise_append]
          refine ⟨hstored.1.filter _, List.pairwise_singleton _ _, ?_⟩
          intro a ha b hb
          simp only [List.mem_singleton] at hb
          rw [hb]
          exact hrecent a ha
        · intro t ht
          rcases List.mem_append.1 ht with h1 | h1
          · exact hrecent t h1
          · simp only [List.mem_singleton] at h1
            rw [h1]

/-- C15: in every state of the rate-limit map reached from the empty map by a
sequence of `checkRateLimit` calls, whatever the keys and the clock values,
every stored list has between 1 and 10 entries; and when the clock values do
not decrease, every stored list is in non-decreasing order. -/
theorem bounded_client_state (calls : List (String × Int)) (p : String × List Int)
    (hp : p ∈ (runCalls [] calls).2) :
    1 ≤ p.2.length ∧ p.2.length ≤ 10 ∧
    (List.Chain' (fun a b => a ≤ b) (calls.map Prod.snd) →
      List.Pairwise (fun a b => a ≤ b) p.2) := by
  have hb := runCalls_bounded calls [] (fun q hq => by simp at hq) p hp
  refine ⟨hb.1, hb.2, ?_⟩
  intro hclock
  cases calls with
  | nil => simp [runCalls] at hp
  | cons call rest =>
    exact runCalls_sorted (call :: rest) [] call.2 (fun q hq => by simp at hq)
      (by
        simp only [List.map_cons, List.chain_cons]
        exact ⟨le_refl _, hclock⟩) p hp

/-- C15 at a concrete run: after twelve calls of one key, one a second, the
key holds the first ten. -/
theorem bounded_client_state_witness :
    (("10.0.0.1", [0, 1000, 2000, 3000, 4000, 5000, 6000, 7000, 8000, 9000]) :
        String × List Int) ∈ (runCalls [] burstCalls).2 ∧
    List.Chain' (fun a b => a ≤ b) (burstCalls.map Prod.snd) ∧
    List.Pairwise (fun a b => a ≤ b)
      ([0, 1000, 2000, 3000, 4000, 5000, 6000, 7000, 8000, 9000] : List Int) :=
  ⟨by decide, by simp [burstCalls],
    (bounded_client_state burstCalls
      ("10.0.0.1", [0, 1000, 2000, 3000, 4000, 5000, 6000, 7000, 8000, 9000])
      (by decide)).2.2 (by simp [burstCalls])⟩

/-! ## C13: the size estimate -/

theorem functionCatch_status_ne_400 (err : Thrown) : (functionCatch err).status ≠ 400 := by
  unfold functionCatch
  split_ifs <;> simp

theorem handler_valid_status (event : FunctionEvent) (body : JSON) (image : String)
    (hmethod : event.httpMethod = "POST") (hreq : event.body = .ok body)
    (hwf : WellFormed body image) : (handler event).response.status ≠ 400 := by
  rw [handler_valid event body image hmethod hreq hwf]
  cases event.provider (createRequest (configuredModel event.envModel) image) with
  | threw err => exact functionCatch_status_ne_400 err
  | malformed => exact functionCatch_status_ne_400 _
  | json parsed => simp

theorem routeAfterLimiter_valid_status (parseZ : JSON → Except Thrown JSON) (req : RouteRequest)
    (body : JSON) (image : String) (hreq : req.body = .ok body) (hwf : WellFormed body image) :
    (routeAfterLimiter parseZ req).1.status ≠ 400 := by
  rw [routeAfterLimiter_valid parseZ req body image hreq hwf]
  cases req.provider (createRequest (configuredModel req.envModel) image) with
  | threw err => exact routeCatch_status_ne_400 err
  | malformed => exact routeCatch_status_ne_400 _
  | json parsed =>
    simp only
    cases hz : parseZ parsed with
    | error err => exact routeCatch_status_ne_400 err
    | ok validated => simp

/-- C13: for every padded base64 encoding `payload` of `n` bytes (its length
`L` is `4 * ceil(n / 3)`), the size the handlers compute is `ceil(3 * L / 4)`
and lies between `n` and `n + 2`. Hence a payload of more than 10 MiB never
passes the size check, and neither handler calls the model for it; and a data
URL with this payload is answered 400 "Image too large" exactly when the
computed size exceeds `10 * 1024 * 1024` (in the route handler: and the rate
limiter has admitted the request). -/
theorem size_estimate_bounds (payload : List Char) (n : Nat) (h : IsBase64Of payload n) :
    imageSizeOf payload = (3 * payload.length + 3) / 4 ∧
    n ≤ imageSizeOf payload ∧ imageSizeOf payload ≤ n + 2 ∧
    (10 * 1024 * 1024 < n → maxSize < imageSizeOf payload) ∧
    (∀ (header : List Char) (body : JSON), (∀ c ∈ header, c ≠ ',') →
      destructureImage body = .ok (some (.str (dataUrl header payload))) →
      (∀ event : FunctionEvent, event.httpMethod = "POST" → event.body = .ok body →
        ((handler event).response = ⟨400, some (.obj [("error",
            .str "Image too large. Please use an image under 10MB.")])⟩ ↔
          10 * 1024 * 1024 < imageSizeOf payload) ∧
        (10 * 1024 * 1024 < n → (handler event).modelRequest = none)) ∧
      (∀ (parseZ : JSON → Except Thrown JSON) (m : RateMap) (req : RouteRequest),
        req.body = .ok body →
        ((POST parseZ m req).response = ⟨400, some (.obj [("error",
            .str "Image too large. Please use an image under 10MB.")])⟩ ↔
          (checkRateLimit m (clientKey req.forwarded) req.now).1 = true ∧
            10 * 1024 * 1024 < imageSizeOf payload) ∧
        (10 * 1024 * 1024 < n → (POST parseZ m req).modelRequest = none))) := by
  have hlen : imageSizeOf payload = (3 * payload.length + 3) / 4 := by
    unfold imageSizeOf
    rw [jsLength_of_bmp payload (fun c hc => isBase64Char_bmp c (h.1 c hc))]
    omega
  have hmax : maxSize = 10 * 1024 * 1024 := rfl
  have hlo : n ≤ imageSizeOf payload := imageSizeOf_base64 payload n h
  have hhi : imageSizeOf payload ≤ n + 2 := by
    rw [hlen, h.2]
    omega
  refine ⟨hlen, hlo, hhi, fun hbig => by omega, ?_⟩
  intro header body hheader hbody
  have hseg := dataUrl_segment header payload hheader
    (fun c hc => isBase64Char_ne_comma c (h.1 c hc))
  have hwf : ¬ 10 * 1024 * 1024 < imageSizeOf payload →
      WellFormed body (dataUrl header payload) := fun hsmall =>
    ⟨hbody, dataUrl_ne_empty _ _, dataUrl_startsWith _ _, payload, hseg, by omega⟩
  refine ⟨?_, ?_⟩
  · intro event hm hb
    have hlarge : 10 * 1024 * 1024 < imageSizeOf payload →
        handler event = ⟨⟨400, some (.obj [("error",
          .str "Image too large. Please use an image under 10MB.")])⟩, none⟩ := fun hl =>
      handler_too_large event body _ payload hm hb hbody
        (dataUrl_ne_empty _ _) (dataUrl_startsWith _ _) hseg (by omega)
    refine ⟨⟨?_, fun hl => by rw [hlarge hl]⟩, fun hbig => by rw [hlarge (by omega)]⟩
    intro hresp
    by_contra hsmall
    exact handler_valid_status event body _ hm hb (hwf hsmall) (by rw [hresp])
  · intro parseZ m req hb
    have hlarge : 10 * 1024 * 1024 < imageSizeOf payload →
        routeAfterLimiter parseZ req = (⟨400, some (.obj [("error",
          .str "Image too large. Please use an image under 10MB.")])⟩, none) := fun hl =>
      routeAfterLimiter_too_large parseZ req body _ payload hb hbody
        (dataUrl_ne_empty _ _) (dataUrl_startsWith _ _) hseg (by omega)
    refine ⟨⟨?_, ?_⟩, ?_⟩
    · intro hresp
      cases hadm : (checkRateLimit m (clientKey req.forwarded) req.now).1 with
      | false =>
        rw [POST_of_limited parseZ m req hadm] at hresp
        have := congrArg Response.status hresp
        simp [rateLimitResponse] at this
      | true =>
        refine ⟨rfl, ?_⟩
        by_contra hsmall
        rw [POST_of_admitted parseZ m req hadm] at hresp
        exact routeAfterLimiter_valid_status parseZ req body _ hb (hwf hsmall)
          (by rw [show (routeAfterLimiter parseZ req).1 = _ from hresp])
    · rintro ⟨hadm, hl⟩
      rw [POST_of_admitted parseZ m req hadm, hlarge hl]
    · intro hbig
      rw [POST_eq, hlarge (by omega)]
      split <;> rfl

/-- C13 at a concrete input: `QQ==` encodes one byte; the computed size is 3,
the largest over-count. -/
theorem size_estimate_bounds_witness :
    IsBase64Of "QQ==".data 1 ∧ imageSizeOf "QQ==".data = 1 + 2 :=
  ⟨⟨by decide, rfl⟩,
    Nat.le_antisymm (size_estimate_bounds "QQ==".data 1 ⟨by decide, rfl⟩).2.2.1 (by decide)⟩

/-! ## C12: the descriptor sent to the model -/

theorem routeAfterLimiter_request (parseZ : JSON → Except Thrown JSON) (req : RouteRequest)
    (r : JSON) (h : (routeAfterLimiter parseZ req).2 = some r) :
    ∃ image, r = createRequest (configuredModel req.envModel) image := by
  unfold routeAfterLimiter at h
  cases hb : req.body with
  | error err => rw [hb] at h; simp at h
  | ok parsedBody =>
    rw [hb] at h
    simp only at h
    cases hd : destructureImage parsedBody with
    | error err => rw [hd] at h; simp at h
    | ok image =>
      rw [hd] at h
      simp only at h
      by_cases c1 : (!truthy image || !typeofIsString image) = true
      · rw [if_pos c1] at h; simp at h
      · rw [if_neg c1] at h
        by_cases c2 : (!startsWith (stringValue image) "data:image") = true
        · rw [if_pos c2] at h; simp at h
        · rw [if_neg c2] at h
          cases hs : (splitComma (stringValue image).data)[1]? with
          | none => rw [hs] at h; simp at h
          | some base64Data =>
            rw [hs] at h
            simp only at h
            by_cases c3 : imageSizeOf base64Data > maxSize
            · rw [if_pos c3] at h; simp at h
            · rw [if_neg c3] at h
              refine ⟨stringValue image, ?_⟩
              cases hp : req.provider (createRequest (configuredModel req.envModel)
                  (stringValue image)) with
              | threw err =>
                rw [hp] at h
                simp only [Option.some.injEq] at h
                exact h.symm
              | malformed =>
                rw [hp] at h
                simp only [Option.some.injEq] at h
                exact h.symm
              | json parsed =>
                rw [hp] at h
                simp only at h
                cases hz : parseZ parsed with
                | error err =>
                  rw [hz] at h
                  simp only [Option.some.injEq] at h
                  exact h.symm
                | ok validated =>
                  rw [hz] at h
                  simp only [Option.some.injEq] at h
                  exact h.symm

theorem handler_request (event : FunctionEvent) (r : JSON)
    (h : (handler event).modelRequest = some r) :
    ∃ image, r = createRequest (configuredModel event.envModel) image := by
  unfold handler at h
  by_cases m1 : event.httpMethod = "OPTIONS"
  · rw [if_pos m1] at h; simp at h
  · rw [if_neg m1] at h
    by_cases m2 : event.httpMethod ≠ "POST"
    · rw [if_pos m2] at h; simp at h
    · rw [if_neg m2] at h
      cases hb : event.body with
      | error err => rw [hb] at h; simp at h
      | ok parsedBody =>
        rw [hb] at h
        simp only at h
        cases hd : destructureImage parsedBody with
        | error err => rw [hd] at h; simp at h
        | ok image =>
          rw [hd] at h
          simp only at h
          by_cases c1 : (!truthy image || !typeofIsString image) = true
          · rw [if_pos c1] at h; simp at h
          · rw [if_neg c1] at h
            by_cases c2 : (!startsWith (stringValue image) "data:image") = true
            · rw [if_pos c2] at h; simp at h
            · rw [if_neg c2] at h
              cases hs : (splitComma (stringValue image).data)[1]? with
              | none => rw [hs] at h; simp at h
              | some base64Data =>
                rw [hs] at h
                simp only at h
                by_cases c3 : imageSizeOf base64Data > maxSize
                · rw [if_pos c3] at h; simp at h
                · rw [if_neg c3] at h
                  refine ⟨stringValue image, ?_⟩
                  cases hp : event.provider (createRequest (configuredModel event.envModel)
                      (stringValue image)) with
                  | threw err =>
                    rw [hp] at h
                    simp only [Option.some.injEq] at h
                    exact h.symm
                  | malformed =>
                    rw [hp] at h
                    simp only [Option.some.injEq] at h
                    exact h.symm
                  | json parsed =>
                    rw [hp] at h
                    simp only [Option.some.injEq] at h
                    exact h.symm

/-- C12: in the descriptor `FactCheckSchemaForAPI` there are two object levels,
the top level and the items of `sources`, and both have
`additionalProperties` false; the top-level `required` list is the list of the
keys of the top-level `properties`, the nine FactCheckResult fields; the items
of `sources` require `url`, of type string, and `title` admits null;
`truthScore` is integer or null with minimum 0 and maximum 100. The
descriptor and the instruction text declared in analyze.js are the ones
declared in route.js, and every request either handler sends to the model
carries this descriptor and this text. -/
theorem schema_descriptor :
    ((descendants FactCheckSchemaForAPI).filter isObjectLevel).length = 2 ∧
    ((descendants FactCheckSchemaForAPI).filter isObjectLevel).all isClosed = true ∧
    getPath FactCheckSchemaForAPI ["schema", "additionalProperties"] = some (.bool false) ∧
    getPath FactCheckSchemaForAPI
      ["schema", "properties", "sources", "items", "additionalProperties"]
      = some (.bool false) ∧
    keysOf (getPath FactCheckSchemaForAPI ["schema", "properties"])
      = ["productName", "company", "keyNumbers", "measurableFacts", "category",
          "briefContext", "truthScore", "report", "sources"] ∧
    getPath FactCheckSchemaForAPI ["schema", "required"]
      = some (.arr ((keysOf (getPath FactCheckSchemaForAPI ["schema", "properties"])).map
          JSON.str)) ∧
    getPath FactCheckSchemaForAPI ["schema", "properties", "sources", "items", "required"]
      = some (.arr [.str "url"]) ∧
    getPath FactCheckSchemaForAPI
      ["schema", "properties", "sources", "items", "properties", "url", "type"]
      = some (.str "string") ∧
    getPath FactCheckSchemaForAPI
      ["schema", "properties", "sources", "items", "properties", "title", "type"]
      = some (.arr [.str "string", .str "null"]) ∧
    getPath FactCheckSchemaForAPI ["schema", "properties", "truthScore"]
      = some (.obj [("type", .arr [.str "integer", .str "null"]),
          ("minimum", .num 0), ("maximum", .num 100)]) ∧
    Netlify.FactCheckSchemaForAPI = FactCheckSchemaForAPI ∧
    Netlify.instructions = instructions ∧
    (∀ (parseZ : JSON → Except Thrown JSON) (m : RateMap) (req : RouteRequest) (r : JSON),
      (POST parseZ m req).modelRequest = some r →
      getPath r ["response_format", "json_schema"] = some FactCheckSchemaForAPI ∧
      requestText r = some (.str instructions)) ∧
    (∀ (event : FunctionEvent) (r : JSON),
      (handler event).modelRequest = some r →
      getPath r ["response_format", "json_schema"] = some Netlify.FactCheckSchemaForAPI ∧
      requestText r = some (.str Netlify.instructions)) := by
  refine ⟨rfl, rfl, rfl, rfl, rfl, rfl, rfl, rfl, rfl, rfl, rfl, rfl, ?_, ?_⟩
  · intro parseZ m req r h
    have h2 : (routeAfterLimiter parseZ req).2 = some r := by
      rw [POST_eq] at h
      split at h
      · exact h
      · simp at h
    obtain ⟨image, hr⟩ := routeAfterLimiter_request parseZ req r h2
    rw [hr]
    exact ⟨rfl, rfl⟩
  · intro event r h
    obtain ⟨image, hr⟩ := handler_request event r h
    rw [hr]
    exact ⟨rfl, rfl⟩

end LucidAd
